import Mathlib

/-!
Verification development for the Scout repository (`nl-poc` analytics service).

The Python sources are shallowly embedded: pure functions become Lean
functions, exceptions become `Except String`, Python `int` becomes `Int`,
Python `datetime.date` becomes the `Cal.Date` structure below (ISO strings
that hold dates are represented as already-parsed `Option Cal.Date`; a
missing value is `none`, and `datetime.fromisoformat` failures coincide
with `none` in this model).
-/

namespace Scout

/-! ## Calendar dates (model of Python `datetime.date`) -/

namespace Cal

/-- A Gregorian calendar date (model of Python `datetime.date`, years ≥ 1). -/
structure Date where
  year : Nat
  month : Nat
  day : Nat
deriving DecidableEq, Repr

/-- Day count since the epoch 0000-03-01, the classic civil-calendar encoding
(`days_from_civil`).  Used to model Python `date` subtraction (`timedelta.days`). -/
def Date.toZ (d : Date) : Nat :=
  let y := if d.month ≤ 2 then d.year - 1 else d.year
  let era := y / 400
  let yoe := y % 400
  let mp := if d.month > 2 then d.month - 3 else d.month + 9
  let doy := (153 * mp + 2) / 5 + d.day - 1
  let doe := yoe * 365 + yoe / 4 - yoe / 100 + doy
  era * 146097 + doe

/-- Inverse of `Date.toZ` (`civil_from_days`). -/
def Date.ofZ (z : Nat) : Date :=
  let era := z / 146097
  let doe := z % 146097
  let yoe := (doe - doe / 1460 + doe / 36524 - doe / 146096) / 365
  let y := yoe + era * 400
  let doy := doe - (365 * yoe + yoe / 4 - yoe / 100)
  let mp := (5 * doy + 2) / 153
  let day := doy - (153 * mp + 2) / 5 + 1
  let month := if mp < 10 then mp + 3 else mp - 9
  ⟨if month ≤ 2 then y + 1 else y, month, day⟩

/-- Python `date` comparison is lexicographic on (year, month, day). -/
def Date.lt (a b : Date) : Bool :=
  a.year < b.year ∨ (a.year = b.year ∧
    (a.month < b.month ∨ (a.month = b.month ∧ a.day < b.day)))

/-- `(b - a).days` for Python dates, as an integer. -/
def Date.subDays (b a : Date) : Int :=
  (b.toZ : Int) - (a.toZ : Int)

/-- `d - timedelta(days=n)` for Python dates. -/
def Date.minusDays (d : Date) (n : Nat) : Date :=
  Date.ofZ (d.toZ - n)

end Cal

/-! ## Python string primitives

Implemented over the character list so that the kernel can evaluate them
(`String.trim`, `String.toLower`, ... are positional loops the kernel
cannot reduce). -/

namespace Py

/-- `str.strip()`: drop whitespace from both ends. -/
def pyStrip (s : String) : String :=
  String.mk (((s.data.dropWhile Char.isWhitespace).reverse.dropWhile
    Char.isWhitespace).reverse)

/-- `str.lower()` (ASCII model). -/
def pyLower (s : String) : String := String.mk (s.data.map Char.toLower)

/-- `str.upper()` (ASCII model). -/
def pyUpper (s : String) : String := String.mk (s.data.map Char.toUpper)

/-- `c in s` for a single character. -/
def pyContainsChar (s : String) (c : Char) : Bool := s.data.any (fun x => x == c)

/-- `s.startswith(pre)`. -/
def pyStartsWith (s pre : String) : Bool := pre.data.isPrefixOf s.data

/-- `s.endswith(suf)`. -/
def pyEndsWith (s suf : String) : Bool := suf.data.isSuffixOf s.data

/-- Digit run to number (caller checks digits). -/
def digitsToNat (l : List Char) : Nat :=
  l.foldl (fun n c => n * 10 + (c.toNat - 48)) 0

/-- A non-empty all-digit run, parsed. -/
def parseNatDigits (l : List Char) : Option Nat :=
  if !l.isEmpty && l.all Char.isDigit then some (digitsToNat l) else none

/-- Python `int(str)`: optional surrounding whitespace, optional sign,
digits; anything else raises (`none`). -/
def parseIntStr (s : String) : Option Int :=
  match (pyStrip s).data with
  | '-' :: rest => (parseNatDigits rest).map (fun n => -(n : Int))
  | '+' :: rest => (parseNatDigits rest).map (fun n => (n : Int))
  | t => (parseNatDigits t).map (fun n => (n : Int))

/-- `s.split("-")` helper. -/
def splitOnHyphenAux : List Char → List Char → List String
  | [], acc => [String.mk acc.reverse]
  | c :: cs, acc =>
    if c = '-' then String.mk acc.reverse :: splitOnHyphenAux cs []
    else splitOnHyphenAux cs (c :: acc)

/-- `s.split("-")`. -/
def splitOnHyphen (s : String) : List String := splitOnHyphenAux s.data []

/-- `s.replace("'", "''")`. -/
def escapeQuotes (s : String) : String :=
  String.mk (s.data.flatMap (fun c => if c = '\'' then ['\'', '\''] else [c]))

/-- Single-character `str.replace`. -/
def replaceChar (s : String) (a b : Char) : String :=
  String.mk (s.data.map (fun c => if c = a then b else c))

end Py

open Py

open Cal

/-! ## NQL data model (`app/nql/model.py`)

Fields whose values `validate_nql` never inspects are carried as opaque
strings; the float field `Provenance.confidence` is omitted (the validator
neither reads nor writes it). -/

namespace NQL

/-- `WindowType` literal set from `app/nql/model.py`. -/
inductive WindowType
  | single_month
  | absolute
  | quarter
  | relative_months
  | ytd
deriving DecidableEq, Repr

/-- `Metric` model: name, aggregation and alias (all strings here;
the literal-set constraints of the Pydantic model are orthogonal to the
validator logic). -/
structure Metric where
  name : String
  agg : String
  «alias» : String
deriving DecidableEq, Repr

/-- `Filter` model.  `value` is an opaque payload: the validator never
inspects it. -/
structure Filter where
  field : String
  op : String
  value : String
  type : String
  notes : Option String := none
deriving DecidableEq, Repr

/-- `TimeWindow` model.  `start`/`end` are ISO date strings in Python,
represented already parsed; `none` models both a missing value and an
unparseable string (either makes `_parse_date` raise). -/
structure TimeWindow where
  type : WindowType
  start : Option Date := none
  «end» : Option Date := none
  exclusive_end : Bool := false
  n : Option Int := none
deriving DecidableEq, Repr

/-- `TimeSpec` model. -/
structure TimeSpec where
  grain : String
  window : TimeWindow
  tz : String := "America/Chicago"
deriving DecidableEq, Repr

/-- `CompareInternalWindow` model. -/
structure CompareInternalWindow where
  expand_prior : Bool := false
deriving DecidableEq, Repr

/-- `CompareSpec` model. -/
structure CompareSpec where
  type : Option String := none
  baseline : Option String := none
  internal_window : Option CompareInternalWindow := none
  mode : Option String := none
  lhs_time : Option String := none
  rhs_time : Option String := none
  dimension : Option String := none
  start : Option String := none
  «end» : Option String := none
  method : Option String := none
deriving DecidableEq, Repr

/-- `Flags` model. -/
structure Flags where
  trend : Option Bool := none
  strict_json : Bool := true
  require_grouping_for_trend : Bool := true
  like_passthrough : Bool := true
  single_month_equals : Bool := true
  quarter_exclusive_end : Bool := true
  rowcap_hint : Int := 10000
deriving DecidableEq, Repr

/-- `Provenance` model (the float field `confidence` is omitted: the
validator only touches `critic_pass`). -/
structure Provenance where
  utterance : Option String := none
  retrieval_notes : List String := []
  critic_pass : List String := []
deriving DecidableEq, Repr

/-- `SortSpec` model. -/
structure SortSpec where
  «by» : String
  dir : String
deriving DecidableEq, Repr

/-- `TopKWithinGroupSpec` model. -/
structure TopKWithinGroupSpec where
  k : Int
  «by» : String
deriving DecidableEq, Repr

/-- `NQLQuery` model (the v0.2 payload containers `bucket` and
`aggregate_v2` are carried opaquely: the validator never inspects them). -/
structure NQLQuery where
  nql_version : String
  intent : String
  dataset : String
  metrics : List Metric
  aggregate : Option String := none
  time : TimeSpec
  dimensions : List String := []
  filters : List Filter := []
  compare : Option CompareSpec := none
  group_by : List String := []
  panel_by : Option String := none
  sort : List SortSpec := []
  limit : Int := 100
  bucket : Option String := none
  aggregate_v2 : Option String := none
  top_k_within_group : Option TopKWithinGroupSpec := none
  flags : Flags := {}
  provenance : Provenance := {}
deriving DecidableEq, Repr

/-! ## Validator (`app/nql/validator.py`) -/

/-- `SERVER_MAX_LIMIT` from `app/nql/validator.py`. -/
def SERVER_MAX_LIMIT : Int := 2000

/-- `_parse_date`: raises when the value is missing (or unparseable, which
this model folds into `none`). -/
def parseDate (raw : Option Date) (context : String) : Except String Date :=
  match raw with
  | none => .error (context ++ " must be provided")
  | some d => .ok d

/-- `_next_quarter_start` from `app/nql/validator.py`: first day of the
quarter after the one containing `dt`. -/
def nextQuarterStart (dt : Date) : Date :=
  let quarter := (dt.month - 1) / 3
  let nextQuarter := (quarter + 1) % 4
  let year := dt.year + (if quarter = 3 then 1 else 0)
  ⟨year, nextQuarter * 3 + 1, 1⟩

/-- `_ensure_quarter_bounds`: returns the updated query together with the
critic-pass tags this step appends. -/
def ensureQuarterBounds (q : NQLQuery) : Except String (NQLQuery × List String) :=
  if q.time.window.type = WindowType.quarter ∧ q.flags.quarter_exclusive_end = true then
    match parseDate q.time.window.start "quarter.start" with
    | .error msg => .error msg
    | .ok s =>
      match parseDate q.time.window.«end» "quarter.end" with
      | .error msg => .error msg
      | .ok e =>
        if e = nextQuarterStart s then
          let q' := if q.time.window.exclusive_end then q else
            { q with time := { q.time with window := { q.time.window with exclusive_end := true } } }
          .ok (q', ["quarter_exclusive_end"])
        else
          .error "quarter window end must be first day of next quarter"
  else
    .ok (q, [])

/-- `_ensure_trend_grouping`.  (The `group_by` insertion and the
`relative_months` default mutate disjoint parts of the query object;
they are expressed as one simultaneous update.) -/
def ensureTrendGrouping (q : NQLQuery) : NQLQuery × List String :=
  if q.intent = "trend" ∧ q.flags.require_grouping_for_trend = true then
    let gb := if "month" ∈ q.group_by ∨ "month" ∈ q.dimensions then q.group_by
      else "month" :: q.group_by
    let n := if q.time.window.type = WindowType.relative_months ∧ q.time.window.n = none
      then some 12 else q.time.window.n
    ({ q with group_by := gb,
              time := { q.time with window := { q.time.window with n := n } } },
     ["trend_grouping"])
  else
    (q, [])

/-- `_ensure_mom_expand_prior`.  (The source's two branches — a fresh
`CompareInternalWindow(expand_prior=True)` when `internal_window` is
`None`, and an in-place `expand_prior = True` otherwise — both produce
the same one-field record, written directly here.) -/
def ensureMomExpandPrior (q : NQLQuery) : NQLQuery × List String :=
  match q.compare with
  | none => (q, [])
  | some c =>
    if c.type = some "mom" ∧ q.time.window.type = WindowType.single_month then
      ({ q with compare := some { c with internal_window := some ⟨true⟩ } },
       ["mom_single_month_expand_prior"])
    else
      (q, [])

/-- The LIKE pattern operators checked by `_validate_like_filters`. -/
def likePatternOps : List String := ["like", "ilike", "like_any"]

/-- `_validate_like_filters`: every LIKE-family filter must use
`type=text_raw`; on success appends the `like_passthrough` tag. -/
def validateLikeFilters (q : NQLQuery) : Except String (List String) :=
  if q.filters.all (fun f => !likePatternOps.contains f.op || f.type == "text_raw") then
    .ok ["like_passthrough"]
  else
    .error "LIKE filters must use type=text_raw for passthrough"

/-- `_validate_sort`: every sort target must be a metric alias or a known
dimension name; appends `sort_safety` only when a sort list is present. -/
def validateSort (q : NQLQuery) : Except String (List String) :=
  if q.sort = [] then .ok []
  else
    let metricAliases := q.metrics.map (·.«alias»)
    let dimensionNames := q.dimensions ++ q.group_by ++ ["month"]
    if q.sort.all (fun s => metricAliases.contains s.«by» || dimensionNames.contains s.«by») then
      .ok ["sort_safety"]
    else
      .error "Sort target must be a metric alias or dimension"

/-- `_clamp_limit`. -/
def clampLimit (q : NQLQuery) : NQLQuery × List String :=
  let rowcapHint := min (max 1 q.flags.rowcap_hint) SERVER_MAX_LIMIT
  let q' := { q with
    flags := { q.flags with rowcap_hint := rowcapHint },
    limit := min (min (max 1 q.limit) rowcapHint) SERVER_MAX_LIMIT }
  (q', ["limit_clamp"])

/-- Accumulator loop of `pyDedup`: keep the elements not seen before. -/
def pyDedupAux (seen : List String) : List String → List String
  | [] => []
  | x :: xs =>
    if seen.contains x then pyDedupAux seen xs
    else x :: pyDedupAux (x :: seen) xs

/-- `list(dict.fromkeys(l))`: stable deduplication keeping first occurrences. -/
def pyDedup (l : List String) : List String := pyDedupAux [] l

/-- `validate_nql` from `app/nql/validator.py`: run the critic validations
and return the normalised copy (mutation of the deep copy is modelled by
threading the updated query through the steps; a raised
`NQLValidationError` aborts the run as in Python). -/
def validate_nql (q : NQLQuery) : Except String NQLQuery :=
  if q.metrics = [] then .error "metrics must contain at least one entry"
  else
    match ensureQuarterBounds q with
    | .error e => .error e
    | .ok (q1, a1) =>
      let (q2, a2) := ensureTrendGrouping q1
      let (q3, a3) := ensureMomExpandPrior q2
      match validateLikeFilters q3 with
      | .error e => .error e
      | .ok a4 =>
        match validateSort q3 with
        | .error e => .error e
        | .ok a5 =>
          let (q6, a6) := clampLimit q3
          let merged := pyDedup (q6.provenance.critic_pass ++ (a1 ++ a2 ++ a3 ++ a4 ++ a5 ++ a6))
          .ok { q6 with provenance := { q6.provenance with critic_pass := merged } }

end NQL

/-! ## Canonicalizer (`app/resolver/canonicalizer.py`)

The cache's mutable state (mappings, version, lock) is modelled by passing
the mapping snapshot explicitly; `resolve` only reads it. -/

namespace Canonical

/-- Python values that can appear as filter values: a raw string, a list
of raw strings, or `None`.  Other payload shapes never reach the
canonicalizer or the resolver's value-resolution in the claims' scope. -/
inductive PValue where
  | str (s : String)
  | list (items : List String)
  | null
deriving DecidableEq, Repr

/-- One `canonical_map` entry as cached by the canonicalizer: only the
`canonical` key is read by `resolve` (the numeric `score` is never
inspected there and is omitted). -/
structure CanonEntry where
  canonical : Option String := none
deriving DecidableEq, Repr

/-- A Python dict modelled as an association list (keys unique by
construction of the store; lookup takes the first match). -/
def lookupAssoc {α : Type} (m : List (String × α)) (k : String) : Option α :=
  (m.find? (fun p => p.1 == k)).map (·.2)

/-- The canonicalizer's cached mappings: dimension → normalised synonym →
entry. -/
def CanonMap : Type := List (String × List (String × CanonEntry))

/-- `CanonicalResolution` dataclass. -/
structure CanonicalResolution where
  value : PValue
  applied : Bool
  like_bypass : Bool
  canonical : Option String := none
  synonym : Option String := none
deriving DecidableEq, Repr

/-- `_normalise` from `app/resolver/canonicalizer.py`. -/
def normalise (value : String) : String := pyLower (pyStrip value)

/-- `Canonicalizer.resolve` from `app/resolver/canonicalizer.py`, reading
the cached mapping snapshot `m`. -/
def canonicalizerResolve (m : CanonMap) (dim : String) (raw : PValue) : CanonicalResolution :=
  match raw with
  | .str rs =>
    let token := pyStrip rs
    if token = "" then { value := raw, applied := false, like_bypass := false }
    else if pyContainsChar token '%' then { value := raw, applied := false, like_bypass := true }
    else
      let lookup := (lookupAssoc m dim).getD []
      let normalised := normalise token
      match lookupAssoc lookup normalised with
      | none => { value := raw, applied := false, like_bypass := false }
      | some entry =>
        -- `canonical = entry.get("canonical") or raw`: `None` and `""` both
        -- fall back to the raw string (Python falsiness).
        let canonical := match entry.canonical with
          | some c => if c = "" then rs else c
          | none => rs
        { value := .str canonical, applied := true, like_bypass := false,
          canonical := some canonical, synonym := some token }
  | _ => { value := raw, applied := false, like_bypass := false }

end Canonical

/-! ## Executor value lookups (`app/executor.py`)

The `SELECT DISTINCT` over the live dataset is modelled by passing the
distinct value list `vals` explicitly. -/

namespace Exec

/-- Inner loop of `_levenshtein`: one DP row step.  `prev` is the previous
row from index `j-1` on, `curLast` is `current[j-1]`. -/
def levInner (ca : Char) : List Char → List Nat → Nat → List Nat
  | cb :: bs, p0 :: p1 :: prest, curLast =>
    let insertCost := curLast + 1
    let deleteCost := p1 + 1
    let replaceCost := p0 + (if ca = cb then 0 else 1)
    let c := min insertCost (min deleteCost replaceCost)
    c :: levInner ca bs (p1 :: prest) c
  | _, _, _ => []

/-- `_levenshtein` from `app/executor.py` (row-by-row dynamic programming;
the longer string drives the outer loop, as in the source). -/
def levenshtein (a b : String) : Nat :=
  let (a, b) := if a.length < b.length then (b, a) else (a, b)
  let bs := b.toList
  let final := a.toList.foldl
    (fun (st : List Nat × Nat) ca =>
      let i := st.2 + 1
      (i :: levInner ca bs st.1 i, i))
    (List.range (bs.length + 1), 0)
  final.1.getLastD 0  -- `previous[-1]`; rows are never empty

/-- `DuckDBExecutor.find_closest_value`: exact case-insensitive match,
then a `startswith` match, over the distinct values `vals`. -/
def findClosestValue (vals : List String) (value : String) : Option String :=
  if value = "" then none
  else
    let norm := pyLower value
    match vals.find? (fun item => pyLower item == norm) with
    | some item => some item
    | none => vals.find? (fun item => pyStartsWith (pyLower item) norm)

/-- `DuckDBExecutor.closest_matches`: rank the distinct values by edit
distance to the (lowercased) target and keep the first `limit`. -/
def closestMatches (vals : List String) (value : String) (limit : Nat) : List String :=
  let target := pyLower value
  let scored := vals.map (fun item => (levenshtein target (pyLower item), item))
  let sorted := scored.mergeSort (fun x y => decide (x.1 ≤ y.1))
  (sorted.take limit).map (·.2)

end Exec

/-! ## Plan resolver (`app/resolver.py` and the canonicalizer-integrated
`PlanResolver` of the `app/resolver` package)

The repository's tests (`tests/canonical/test_resolve_like_bypass.py`)
construct `PlanResolver(semantic, executor, canonicalizer=...)`, a variant
whose module (`app/resolver/__init__.py`) is not present under `src/`;
its value-resolution flow is modelled from the spec below.  The pattern
bypass and the executor lookups it composes are embedded from the source
(`app/resolver.py`, `app/executor.py`). -/

namespace Resolver

open Canonical Exec

/-- `PlanResolutionError` from `app/resolver.py`. -/
structure PlanResolutionError where
  message : String
  suggestions : List String := []
deriving DecidableEq, Repr

/-- `PlanResolver._PATTERN_OPERATORS`. -/
def PATTERN_OPERATORS : List String := ["like", "not like", "like_any", "contains"]

/-- `PlanResolver._should_bypass_value_resolution`: falsy operators never
bypass; otherwise membership of the lowercased operator in the pattern set. -/
def shouldBypassValueResolution (op : Option String) : Bool :=
  match op with
  | none => false
  | some o => if o = "" then false else PATTERN_OPERATORS.contains (pyLower o)

/-- A call made by the resolver to a collaborator, reified so that
"zero calls" assertions can be stated about resolution. -/
inductive ResolverCall where
  | canon (dim : String) (raw : PValue)
  | findValue (dim : String) (item : PValue)
  | rankValues (dim : String) (item : PValue)
deriving DecidableEq, Repr

/-- The resolver's collaborators (canonicalizer cache and the executor's
two live-dataset lookups) as oracles, so that claims can quantify over
their behaviour. -/
structure ResolveEnv where
  canonResolve : String → PValue → CanonicalResolution
  findClosestValue : String → PValue → Option String
  closestMatches : String → PValue → List String

/-- The oracle assignment induced by the embedded source functions: the
canonicalizer over mapping snapshot `m`, the executor lookups over the
distinct value list `vals` (a non-string value makes `find_closest_value`
return `None` via its falsiness guard; `closest_matches` on a non-string
is outside the claims' scope and yields `[]`). -/
def sourceEnv (m : CanonMap) (vals : List String) : ResolveEnv where
  canonResolve := fun dim raw => canonicalizerResolve m dim raw
  findClosestValue := fun _ item =>
    match item with
    | .str s => Exec.findClosestValue vals s
    | _ => none
  closestMatches := fun _ item =>
    match item with
    | .str s => Exec.closestMatches vals s 5
    | _ => []

/-- An oracle assignment with an arbitrary canonicalizer behaviour but
the executor lookups of the source over the distinct value list `vals`
(used to quantify claims over every canonicalizer behaviour). -/
def mixedEnv (canon : String → PValue → CanonicalResolution)
    (vals : List String) : ResolveEnv where
  canonResolve := canon
  findClosestValue := fun _ item =>
    match item with
    | .str s => Exec.findClosestValue vals s
    | _ => none
  closestMatches := fun _ item =>
    match item with
    | .str s => Exec.closestMatches vals s 5
    | _ => []

/-- The string carried by a resolved `PValue` (resolution results are
always strings when they are used). -/
def pvalStr : PValue → String
  | .str s => s
  | _ => ""

/-- Modelled from the spec: the canonicalizer-integrated per-item value
resolution of `PlanResolver._resolve_filter_values` (the
`app/resolver/__init__.py` variant, absent from `src/`): consult
`canonicalizer.resolve(field, item)` first; only if it did not apply,
fall back to the executor's legacy nearest-value lookup; if that also
fails, raise `PlanResolutionError` carrying the executor's ranked
"did you mean" suggestions.  The second component records the calls made. -/
def resolveItem (env : ResolveEnv) (field : String) (item : PValue) :
    Except PlanResolutionError (String × List ResolverCall) :=
  let r := env.canonResolve field item
  if r.applied then
    .ok (pvalStr r.value, [.canon field item])
  else
    match env.findClosestValue field item with
    | some resolved => .ok (resolved, [.canon field item, .findValue field item])
    | none =>
      .error { message := "Could not find value '" ++ pvalStr item ++ "' for " ++ field,
               suggestions := env.closestMatches field item }

/-- `PlanResolver._resolve_filter_values` over a whole filter value
(scalar or list), with the canonicalizer-first flow of `resolveItem`:
month fields and unknown dimensions pass through untouched, list values
are resolved item by item. -/
def resolveFilterValues (env : ResolveEnv) (dims : List String) (field : String)
    (value : PValue) : Except PlanResolutionError (PValue × List ResolverCall) :=
  if field = "month" then .ok (value, [])
  else if ¬ dims.contains field then .ok (value, [])
  else
    match value with
    | .list items => do
      let folded ← items.foldlM
        (fun (acc : List String × List ResolverCall) item => do
          let (r, cs) ← resolveItem env field (.str item)
          pure (acc.1 ++ [r], acc.2 ++ cs))
        ([], [])
      .ok (.list folded.1, folded.2)
    | v => do
      let (r, cs) ← resolveItem env field v
      .ok (.str r, cs)

/-- A plan filter as seen by `PlanResolver.resolve` (a dict with `field`,
`op`, `value` keys; `op` may be absent). -/
structure PFilter where
  field : String
  op : Option String := none
  value : PValue
deriving DecidableEq, Repr

/-- The non-month branch of the filter loop in `PlanResolver.resolve`:
pattern operators bypass value resolution entirely and keep the literal
value verbatim; every other operator goes through value resolution. -/
def resolveFilterStep (env : ResolveEnv) (dims : List String) (f : PFilter) :
    Except PlanResolutionError (PFilter × List ResolverCall) :=
  if shouldBypassValueResolution f.op then
    .ok ({ field := f.field, op := f.op, value := f.value }, [])
  else do
    let (rv, calls) ← resolveFilterValues env dims f.field f.value
    .ok ({ field := f.field, op := f.op, value := rv }, calls)

/-- A raw `plan["limit"]` payload. -/
inductive LimitValue where
  | null
  | int (n : Int)
  | str (s : String)
deriving DecidableEq, Repr

/-- Python `int(str)` (sign and digits; anything else raises, modelled
`none`). -/
def pyParseInt (s : String) : Option Int := parseIntStr s

/-- The `limit` handling of `PlanResolver.resolve`
(`if limit_value in (None, "", 0, "0"): limit = 0 else:
min(int(limit_value), 2000)`); `int()` failure raises (`none`). -/
def resolveLimit (lv : LimitValue) : Option Int :=
  if lv = .null ∨ lv = .str "" ∨ lv = .int 0 ∨ lv = .str "0" then some 0
  else
    match lv with
    | .int n => some (min n 2000)
    | .str s => (pyParseInt s).map (fun n => min n 2000)
    | .null => none

end Resolver

/-! ## Guardrails (`app/guardrails.py`) -/

namespace Guard

/-- The `time` entry of a guardrail NQL dict; `start`/`end` are ISO date
strings, represented parsed (`none` models a missing or unparseable
value, which make the `fromisoformat` guard fail). -/
structure GTime where
  start : Option Date := none
  «end» : Option Date := none
deriving DecidableEq, Repr

/-- The guardrail view of an NQL dict: only the `time` entry matters to
the time-sanity prefix of `validate_plan` embedded here; the remaining
keys ride along untouched by it. -/
structure GNql where
  time : Option GTime := none
deriving DecidableEq, Repr

/-- `_default_config` output: the numeric limits of `validate_plan`
(the `canonical_values` entry feeds only the post-time-check portion). -/
structure GuardConfig where
  MAX_ROWS : Int := 10000
  TOP_K_DEFAULT : Int := 100
  JOIN_BLOWUP_FACTOR : Int := 10
  MAX_TIME_RANGE_YEARS : Int := 10
  DEFAULT_LIMIT : Int := 100
deriving DecidableEq, Repr

/-- A `validate_plan` diagnostic entry (constructor per emitted shape,
carrying the detail fields the source records). -/
inductive Diagnostic where
  | unsafeSelectStar
  | ambiguousTimeMissing (start «end» : Option Date)
  | ambiguousTimeOrder (start «end» : Date)
  | ambiguousTimeSpan (start «end» : Date) (maxYears : Int)
  | blockedRewrite (suggestedStart suggestedEnd : Date)
deriving DecidableEq, Repr

/-- The `limits` entry of a `validate_plan` result. -/
structure GuardLimits where
  row_cap : Int
  applied : Bool := false
  top_k : Option Int := none
deriving DecidableEq, Repr

/-- A `validate_plan` result dict. -/
structure GuardResult where
  decision : String
  effective_nql : GNql
  effective_sql : Option String
  diagnostics : List Diagnostic
  limits : GuardLimits
  postflight_numeric_ok : Bool := true
deriving DecidableEq, Repr

/-- One candidate position for the `select\s+\*` regex: the (lowercased)
text starts with `select`, then at least one whitespace character, then
(after further whitespace) a star. -/
def selectStarAt : List Char → Bool
  | 's' :: 'e' :: 'l' :: 'e' :: 'c' :: 't' :: c :: cs =>
    c.isWhitespace && (cs.dropWhile Char.isWhitespace).headD 'x' = '*'
  | _ => false

/-- `_SELECT_STAR.search(sql)`: case-insensitive search for
`select\s+\*` anywhere in the text. -/
def hasSelectStar (sql : String) : Bool :=
  ((pyLower sql).data.tails).any selectStarAt

/-- `effective_nql.setdefault("time", {})` followed by assigning the
suggested `start`/`end`. -/
def setTimeRange (n : GNql) (s e : Date) : GNql :=
  match n.time with
  | none => { n with time := some { start := some s, «end» := some e } }
  | some t => { n with time := some { t with start := some s, «end» := some e } }

/-- Python date `<=` (lexicographic on year, month, day). -/
def dateLe (a b : Date) : Bool := a.lt b || a = b

/-- `validate_plan` from `app/guardrails.py`: the SELECT * pre-check and
the time-sanity checks, embedded from the source.  The portion after the
time checks (join-explosion, row-cap rewrites, unknown-value ILIKE
fallback, default limit) performs no early return before producing its
result and is abstracted as the continuation `rest`, which receives the
working state; every theorem below holds for an arbitrary continuation
because the claims' paths return before it. -/
def validate_plan (cfg : GuardConfig) (nql : Option GNql) (sql : String)
    (rest : GNql → List Diagnostic → GuardLimits → GuardResult) : GuardResult :=
  let effectiveNql := nql.getD {}
  let limits : GuardLimits := { row_cap := cfg.MAX_ROWS }
  if hasSelectStar sql then
    { decision := "block", effective_nql := effectiveNql, effective_sql := none,
      diagnostics := [.unsafeSelectStar], limits := limits }
  else
    let startO := effectiveNql.time.bind (·.start)
    let endO := effectiveNql.time.bind (·.«end»)
    match startO, endO with
    | some parsedStart, some parsedEnd =>
      if dateLe parsedEnd parsedStart then
        { decision := "block", effective_nql := effectiveNql, effective_sql := none,
          diagnostics := [.ambiguousTimeOrder parsedStart parsedEnd], limits := limits }
      else if parsedEnd.subDays parsedStart > cfg.MAX_TIME_RANGE_YEARS * 366 then
        let safeEnd := parsedEnd
        let safeStart := parsedEnd.minusDays 365
        let effectiveNql' := setTimeRange effectiveNql safeStart safeEnd
        { decision := "block", effective_nql := effectiveNql', effective_sql := none,
          diagnostics := [.ambiguousTimeSpan parsedStart parsedEnd cfg.MAX_TIME_RANGE_YEARS,
                          .blockedRewrite safeStart safeEnd],
          limits := limits }
      else
        rest effectiveNql [] limits
    | _, _ =>
      { decision := "block", effective_nql := effectiveNql, effective_sql := none,
        diagnostics := [.ambiguousTimeMissing startO endO], limits := limits }

end Guard

/-! ## SQL builder (`app/sql_builder.py`)

The semantic model comes from `app/resolver.py` (`SemanticModel` /
`SemanticDimension` / `SemanticMetric`); dicts are association lists. -/

namespace SQLB

open Canonical (lookupAssoc)
open Resolver (LimitValue pyParseInt)

/-- `SemanticDimension` (the fields `sql_builder` reads). -/
structure SemanticDimension where
  name : String
  column : String
deriving DecidableEq, Repr

/-- `SemanticMetric` (the fields `sql_builder` reads). -/
structure SemanticMetric where
  name : String
  agg : String
deriving DecidableEq, Repr

/-- `SemanticMetric.sql_expression`: only `count` is supported (any other
aggregation raises in Python and is outside the claims' scope; the
fallback below keeps the function total). -/
def SemanticMetric.sqlExpression (m : SemanticMetric) : String :=
  if m.agg = "count" then "COUNT(*)" else "COUNT(*)"

/-- `SemanticModel` with its dicts as association lists. -/
structure SemanticModel where
  table : String
  dimensions : List (String × SemanticDimension)
  metrics : List (String × SemanticMetric)
deriving DecidableEq, Repr

/-- `quote_identifier`. -/
def quoteIdentifier (name : String) : String :=
  if pyStartsWith name "\"" && pyEndsWith name "\"" then name
  else "\"" ++ name ++ "\""

/-- `dimension_expression`.  A missing dimension raises `KeyError` in
Python; callers only pass known dimensions, and unknown names fall back
to a column of the same name here to keep the function total. -/
def dimensionExpression (dimensionName : String) (semantic : SemanticModel)
    (tblAlias : String) : String :=
  let pfx := if tblAlias = "" then "" else tblAlias ++ "."
  if dimensionName = "month" then
    if tblAlias = "" then "month" else pfx ++ "month"
  else
    let dim := (lookupAssoc semantic.dimensions dimensionName).getD
      ⟨dimensionName, dimensionName⟩
    pfx ++ quoteIdentifier dim.column

/-- A scalar Python value inside a builder plan filter. -/
inductive BItem where
  | null
  | int (n : Int)
  | str (s : String)
deriving DecidableEq, Repr

/-- A filter value: scalar or (flat) list. -/
inductive BValue where
  | scalar (v : BItem)
  | list (items : List BItem)
deriving DecidableEq, Repr

/-- Python truthiness of a scalar value. -/
def truthyItem : BItem → Bool
  | .null => false
  | .int n => n ≠ 0
  | .str s => s ≠ ""

/-- Python truthiness of a filter value. -/
def truthyValue : BValue → Bool
  | .scalar v => truthyItem v
  | .list items => items ≠ []

/-- `str(value)` as interpolated by the f-strings of the builder. -/
def itemText : BItem → String
  | .null => "None"
  | .int n => toString n
  | .str s => s

/-- `_format_literal`. -/
def formatLiteral : BItem → String
  | .int n => toString n
  | .null => "NULL"
  | .str s => "'" ++ escapeQuotes s ++ "'"

/-- `_format_literal` over a whole value; Python would stringify a list
via `repr`, which no claim exercises — the list branch mimics that shape. -/
def formatValue : BValue → String
  | .scalar v => formatLiteral v
  | .list items =>
    "'[" ++ ", ".intercalate (items.map itemText) ++ "]'"

/-- ISO `YYYY-MM-DD` parsing (the builder only ever sees
`date.isoformat()` strings; `datetime.fromisoformat` failures are `none`). -/
def parseIso (s : String) : Option Date :=
  match splitOnHyphen s with
  | [y, m, d] => do
    let yv ← parseNatDigits y.data
    let mv ← parseNatDigits m.data
    let dv ← parseNatDigits d.data
    pure ⟨yv, mv, dv⟩
  | _ => none

/-- Left-pad a numeral with zeros. -/
def padNum (width : Nat) (n : Nat) : String :=
  let s := toString n
  let pad := width - s.length
  String.mk (List.replicate pad '0') ++ s

/-- `date.isoformat()`. -/
def isoDate (d : Date) : String :=
  padNum 4 d.year ++ "-" ++ padNum 2 d.month ++ "-" ++ padNum 2 d.day

/-- A builder plan filter dict (`field`, `op`, `value`, plus the
`_raw_date` marker used by the absolute-baseline compare path). -/
structure BFilter where
  field : Option String := none
  op : Option String := none
  value : BValue := .scalar .null
  raw_date : Bool := false
deriving DecidableEq, Repr

/-- The month branch of `_build_filters`. -/
def monthClause (monthExpr : String) (value : BValue) : Option String :=
  match value with
  | .list (v0 :: v1 :: _) =>
    if truthyItem v0 && truthyItem v1 then
      let s := itemText v0
      let e := itemText v1
      if v0 = v1 then some (monthExpr ++ " = DATE '" ++ s ++ "'")
      else
        match parseIso s, parseIso e with
        | some ds, some de =>
          if ds = de then some (monthExpr ++ " = DATE '" ++ s ++ "'")
          else some (monthExpr ++ " >= DATE '" ++ s ++ "' AND " ++ monthExpr ++
            " < DATE '" ++ e ++ "'")
        | _, _ =>
          some (monthExpr ++ " >= DATE '" ++ s ++ "' AND " ++ monthExpr ++
            " < DATE '" ++ e ++ "'")
    else
      some (monthExpr ++ " = DATE '" ++ itemText v0 ++ "'")
  | .list [v0] => some (monthExpr ++ " = DATE '" ++ itemText v0 ++ "'")
  | .list [] => none
  | .scalar (.str s) => some (monthExpr ++ " = DATE '" ++ s ++ "'")
  | _ => none

/-- The `_date_range` / `_raw_date` branch of `_build_filters`. -/
def rawDateClause (pfx : String) (op : String) (value : BValue) : Option String :=
  let dateCol := pfx ++ "\"DATE OCC\""
  if op = "between" then
    match value with
    | .list [v0, v1] =>
      some (dateCol ++ " >= DATE '" ++ itemText v0 ++ "' AND " ++ dateCol ++
        " < DATE '" ++ itemText v1 ++ "'")
    | _ => none
  else none

/-- The known-dimension branch of `_build_filters`. -/
def dimClause (expr : String) (op : String) (value : BValue) : Option String :=
  match op, value with
  | "in", .list items =>
    some (expr ++ " IN (" ++ ", ".intercalate (items.map formatLiteral) ++ ")")
  | "between", .list [v0, v1] =>
    some (expr ++ " BETWEEN " ++ formatLiteral v0 ++ " AND " ++ formatLiteral v1)
  | "like_any", .list items =>
    let lowered := (items.filter truthyItem).map (fun v => pyLower (itemText v))
    if lowered = [] then none
    else
      some ("(" ++ " OR ".intercalate
        (lowered.map (fun pat => "LOWER(" ++ expr ++ ") LIKE " ++ formatLiteral (.str pat)))
        ++ ")")
  | _, _ => some (expr ++ " " ++ op ++ " " ++ formatValue value)

/-- `_build_filters`. -/
def buildFilters (filters : List BFilter) (semantic : SemanticModel)
    (tblAlias : String) : String :=
  let clauseOf := fun (filt : BFilter) =>
    let op := filt.op.getD "="
    if filt.field = some "month" then
      monthClause (dimensionExpression "month" semantic tblAlias) filt.value
    else if filt.field = some "_date_range" ∨ filt.raw_date then
      rawDateClause (if tblAlias = "" then "" else tblAlias ++ ".") op filt.value
    else
      match filt.field with
      | some f =>
        if (lookupAssoc semantic.dimensions f).isNone then none
        else dimClause (dimensionExpression f semantic tblAlias) op filt.value
      | none => none
  let clauses := filters.filterMap clauseOf
  if clauses = [] then "" else "WHERE " ++ " AND ".intercalate clauses

/-- An `order_by` entry. -/
structure OrderSpec where
  field : Option String := none
  dir : Option String := none
deriving DecidableEq, Repr

/-- `_build_order_clause`. -/
def buildOrderClause (orderBy : List OrderSpec) : String :=
  if orderBy = [] then ""
  else
    "ORDER BY " ++ ", ".intercalate
      (orderBy.map (fun o => o.field.getD "None" ++ " " ++ pyUpper (o.dir.getD "desc")))

/-- `_build_partition_clause`. -/
def buildPartitionClause (groupBy : List String) : String :=
  let dims := groupBy.filter (fun dim => dim ≠ "month")
  if dims = [] then "PARTITION BY 1"
  else "PARTITION BY " ++ ", ".intercalate dims

/-- Python month shifting (`(month - 1 + delta) // 12` floor semantics). -/
def pyShiftMonth (d : Date) (delta : Int) : Date :=
  let base : Int := (d.month : Int) - 1 + delta
  ⟨((d.year : Int) + base.fdiv 12).toNat, (base.emod 12 + 1).toNat, 1⟩

/-- `_shift_month_filter`. -/
def shiftMonthFilter (filters : List BFilter) (deltaMonths : Int) : List BFilter :=
  filters.map (fun filt =>
    if filt.field ≠ some "month" then filt
    else
      match filt.value with
      | .list (v0 :: _ :: _) =>
        match parseIso (itemText v0) with
        | some startDate =>
          let shiftedStart := pyShiftMonth startDate deltaMonths
          let shiftedEnd := pyShiftMonth shiftedStart 1
          { field := some "month", op := some (filt.op.getD "between"),
            value := .list [.str (isoDate shiftedStart), .str (isoDate shiftedEnd)] }
        | none => filt
      | _ => filt)

/-- `_is_single_month_equality`. -/
def isSingleMonthEquality (filters : List BFilter) : Bool :=
  filters.any (fun filt =>
    if filt.field ≠ some "month" then false
    else
      (filt.op = some "=" && truthyValue filt.value) ||
      (match filt.value with
       | .list [_] => true
       | .list (v0 :: v1 :: _) =>
         if truthyItem v0 && truthyItem v1 then
           match parseIso (itemText v0), parseIso (itemText v1) with
           | some s, some e =>
             (e.year = s.year ∧ e.month = s.month + 1) ∨
               (s.month = 12 ∧ e.year = s.year + 1 ∧ e.month = 1)
           | _, _ => false
         else false
       | _ => false))

/-- A builder `compare` dict. -/
structure BCompare where
  type : Option String := none
  periods : Option Int := none
  baseline : Option String := none
  method : Option String := none
  start : Option String := none
  «end» : Option String := none
  internal_window : Option BFilter := none
deriving DecidableEq, Repr

/-- A `top_k_within_group` dict (`.get` defaults applied at use sites). -/
structure BTopK where
  k : Option Int := none
  «by» : Option String := none
deriving DecidableEq, Repr

/-- A `bucket` dict; each quantile is carried as its f-string text
together with `int(q*100)` (Python floats never otherwise inspected). -/
structure BBucket where
  field : Option String := none
  method : Option String := none
  q : Option (List (String × Int)) := none
deriving DecidableEq, Repr

/-- An `aggregate_v2` dict. -/
structure BAggV2 where
  median_of : Option String := none
  distinct_of : Option String := none
deriving DecidableEq, Repr

/-- Truthiness of an optional string (Python `if s:`). -/
def optTruthy : Option String → Bool
  | some s => s ≠ ""
  | none => false

/-- A resolved/compiled plan as consumed by `build` (dict keys as
optional fields; `extras` is represented by the single key `build`
reads from it, `share_city`). -/
structure BPlan where
  metrics : List String := []
  aggregate : Option String := none
  group_by : List String := []
  filters : List BFilter := []
  order_by : Option (List OrderSpec) := none
  limit : LimitValue := .int 0
  compare : Option BCompare := none
  internal_window : Option BFilter := none
  share_city : Bool := false
  panel_by : Option String := none
  bucket : Option BBucket := none
  aggregate_v2 : Option BAggV2 := none
  top_k_within_group : Option BTopK := none
deriving DecidableEq, Repr

/-- `int(raw_limit)` with the `except` fallback to 0. -/
def pyIntOf : LimitValue → Int
  | .int n => n
  | .str s => (pyParseInt s).getD 0
  | .null => 0

/-- `if limit: final_sql += f" LIMIT {limit}"` (shared tail of every
builder path). -/
def withLimit (sql : String) (limit : Int) : String :=
  if limit ≠ 0 then sql ++ " LIMIT " ++ toString limit else sql

/-- The `WITH base AS (...)` CTE literal. -/
def baseCte : String :=
  "WITH base AS (SELECT DATE_TRUNC('month', \"DATE OCC\") AS month, * FROM la_crime_raw)"

/-- `_build_v2_topk_within_group_sql`. -/
def buildV2TopkWithinGroupSql (topkDict : BTopK) (filters : List BFilter)
    (groupBy : List String) (metrics : List String) (semantic : SemanticModel)
    (limit : Int) : String :=
  let k := topkDict.k.getD 5
  let rankBy := topkDict.«by».getD "incidents"
  let partitionClause :=
    if groupBy.length > 1 then "PARTITION BY " ++ ", ".intercalate groupBy.dropLast
    else "PARTITION BY 1"
  let selectParts := groupBy.map (fun dim =>
    dimensionExpression dim semantic "base" ++ " AS " ++ dim)
  let metricExpr :=
    match metrics with
    | m :: _ =>
      match lookupAssoc semantic.metrics m with
      | some mo => mo.sqlExpression ++ " AS " ++ m
      | none => "COUNT(*) AS incidents"
    | [] => "COUNT(*) AS incidents"
  let whereClause := buildFilters filters semantic "base"
  let groupClause :=
    if groupBy = [] then ""
    else "GROUP BY " ++ ", ".intercalate (groupBy.map (dimensionExpression · semantic "base"))
  let aggSql := ("SELECT " ++ ", ".intercalate (selectParts ++ [metricExpr]) ++
    " FROM base " ++ whereClause ++ " " ++ groupClause).trim
  let rankedSql := "SELECT *, ROW_NUMBER() OVER (" ++ partitionClause ++
    " ORDER BY " ++ rankBy ++ " DESC) AS rn FROM (" ++ aggSql ++ ") agg"
  let outputCols := ", ".intercalate (groupBy ++ [rankBy])
  let finalSql := baseCte ++ ", ranked AS (" ++ rankedSql ++ ") SELECT " ++
    outputCols ++ " FROM ranked WHERE rn <= " ++ toString k
  withLimit finalSql limit

/-- `_build_v2_bucket_sql`. -/
def buildV2BucketSql (bucketDict : BBucket) (limit : Int) : String :=
  let field := bucketDict.field.getD "incidents"
  let method := bucketDict.method.getD "quantile"
  if method = "quantile" then
    let quantiles := bucketDict.q.getD
      [("0", 0), ("0.25", 25), ("0.5", 50), ("0.75", 75), ("1", 100)]
    let edgesSql := ", ".intercalate (quantiles.map (fun q =>
      "PERCENTILE_DISC(" ++ q.1 ++ ") WITHIN GROUP (ORDER BY " ++ field ++
        ") AS q" ++ toString q.2))
    let edgesCte := "SELECT " ++ edgesSql ++ " FROM base"
    withLimit (baseCte ++ ", edges AS (" ++ edgesCte ++
      ") SELECT 'bucket' AS bucket, COUNT(*) AS count FROM base") limit
  else
    withLimit (baseCte ++ " SELECT 'bucket' AS bucket, COUNT(*) AS count FROM base") limit

/-- `_build_v2_aggregate_sql`. -/
def buildV2AggregateSql (aggregateDict : BAggV2) (filters : List BFilter)
    (groupBy : List String) (semantic : SemanticModel) (limit : Int) : String :=
  let medianOf := aggregateDict.median_of
  let distinctOf := aggregateDict.distinct_of
  let selectParts := groupBy.map (fun dim =>
    dimensionExpression dim semantic "base" ++ " AS " ++ dim)
  let whereClause := buildFilters filters semantic "base"
  if optTruthy medianOf &&
      ["incidents", "count", "events"].contains (pyLower (medianOf.getD "")) then
    let dailySelect := ["DATE_TRUNC('day', base.\"DATE OCC\") AS day"] ++ selectParts ++
      ["COUNT(*) AS incidents"]
    let dailyGroup := ["day"] ++ groupBy.map (dimensionExpression · semantic "base")
    let dailySql := "SELECT " ++ ", ".intercalate dailySelect ++ " FROM base " ++
      whereClause ++ " GROUP BY " ++ ", ".intercalate dailyGroup
    let medianSelect := groupBy ++
      ["PERCENTILE_DISC(0.5) WITHIN GROUP (ORDER BY incidents) AS median_incidents"]
    let medianGroup := ", ".intercalate groupBy
    let finalSql :=
      if medianGroup ≠ "" then
        baseCte ++ ", daily AS (" ++ dailySql ++ ") SELECT " ++
          ", ".intercalate medianSelect ++ " FROM daily GROUP BY " ++ medianGroup
      else
        baseCte ++ ", daily AS (" ++ dailySql ++ ") SELECT " ++
          ", ".intercalate medianSelect ++ " FROM daily"
    withLimit finalSql limit
  else
    let aggExprs :=
      (if optTruthy medianOf then
        let mo := medianOf.getD ""
        let colName := if pyContainsChar mo ' ' then "\"" ++ mo ++ "\"" else mo
        ["PERCENTILE_DISC(0.5) WITHIN GROUP (ORDER BY " ++ colName ++ ") AS median_" ++
          replaceChar mo ' ' '_']
      else []) ++
      (if optTruthy distinctOf then
        let dof := distinctOf.getD ""
        let colName := if pyContainsChar dof ' ' then "\"" ++ dof ++ "\"" else dof
        ["COUNT(DISTINCT " ++ colName ++ ") AS distinct_" ++ replaceChar dof ' ' '_']
      else [])
    let groupClause :=
      if groupBy = [] then ""
      else "GROUP BY " ++ ", ".intercalate (groupBy.map (dimensionExpression · semantic "base"))
    withLimit ((baseCte ++ " SELECT " ++ ", ".intercalate (selectParts ++ aggExprs) ++
      " FROM base " ++ whereClause ++ " " ++ groupClause).trim) limit

/-- `_build_v2_compare_sql`. -/
def buildV2CompareSql (compareDict : BCompare) (filters : List BFilter)
    (groupBy : List String) (metrics : List String) (semantic : SemanticModel)
    (orderBy : List OrderSpec) (limit : Int) : String :=
  let baseline := compareDict.baseline
  let method := compareDict.method.getD "diff_pct"
  let selectParts := groupBy.map (fun dim =>
    dimensionExpression dim semantic "base" ++ " AS " ++ dim)
  let metricExpr :=
    match metrics with
    | m :: _ =>
      match lookupAssoc semantic.metrics m with
      | some mo => mo.sqlExpression ++ " AS value"
      | none => "COUNT(*) AS value"
    | [] => "COUNT(*) AS value"
  let whereClause := buildFilters filters semantic "base"
  let groupClause :=
    if groupBy = [] then ""
    else "GROUP BY " ++ ", ".intercalate (groupBy.map (dimensionExpression · semantic "base"))
  let currentSql := ("SELECT " ++ ", ".intercalate (selectParts ++ [metricExpr]) ++
    " FROM base " ++ whereClause ++ " " ++ groupClause).trim
  let baselineFilters :=
    if baseline = some "previous_period" then shiftMonthFilter filters (-1)
    else if baseline = some "same_period_last_year" then shiftMonthFilter filters (-12)
    else if baseline = some "absolute" then
      let bf := filters.filter (fun f => f.field ≠ some "month")
      if optTruthy compareDict.start && optTruthy compareDict.«end» then
        bf ++ [{ field := some "_date_range", op := some "between",
                 value := .list [.str (compareDict.start.getD ""), .str (compareDict.«end».getD "")],
                 raw_date := true }]
      else bf
    else filters
  let baselineWhere := buildFilters baselineFilters semantic "base"
  let baselineSql := ("SELECT " ++ ", ".intercalate (selectParts ++ [metricExpr]) ++
    " FROM base " ++ baselineWhere ++ " " ++ groupClause).trim
  let joinKeys :=
    if groupBy = [] then "1=1"
    else " AND ".intercalate (groupBy.map (fun dim => "c." ++ dim ++ " = b." ++ dim))
  let diffExpr :=
    if method = "diff_abs" then "c.value - b.value AS diff_abs"
    else "CASE WHEN b.value = 0 THEN NULL ELSE (c.value - b.value) * 100.0 / b.value END AS diff_pct"
  let selectCols := ", ".intercalate (groupBy.map (fun dim => "c." ++ dim) ++
    ["c.value AS current", "b.value AS baseline", diffExpr])
  let finalSql := baseCte ++ ", current AS (" ++ currentSql ++ "), baseline AS (" ++
    baselineSql ++ ") SELECT " ++ selectCols ++ " FROM current c LEFT JOIN baseline b ON " ++
    joinKeys
  let finalSql := if orderBy ≠ [] then finalSql ++ " " ++ buildOrderClause orderBy else finalSql
  withLimit finalSql limit

/-- `build` from `app/sql_builder.py`.  (The `agg_filters`/
`agg_where_clause` block at lines 171-186 of the source is dead code —
its results are recomputed from scratch inside the mom/yoy branch and
unused elsewhere — and is not replicated.) -/
def build (plan : BPlan) (semantic : SemanticModel) : String :=
  let aggregate := plan.aggregate
  let rawMetrics := plan.metrics
  let metrics :=
    if rawMetrics = [] ∧ aggregate ≠ some "count" then ["incidents"] else rawMetrics
  let groupBy := plan.group_by
  let filters := plan.filters
  let orderBy := plan.order_by.getD []
  let limit := pyIntOf plan.limit
  let compareType := plan.compare.bind (·.type)
  -- v0.2 routing
  match plan.top_k_within_group with
  | some topk => buildV2TopkWithinGroupSql topk filters groupBy metrics semantic limit
  | none =>
  match plan.bucket with
  | some bucket => buildV2BucketSql bucket limit
  | none =>
  match plan.aggregate_v2 with
  | some aggV2 => buildV2AggregateSql aggV2 filters groupBy semantic limit
  | none =>
  if (plan.compare.bind (·.baseline)) ∈
      [some "previous_period", some "same_period_last_year", some "absolute"] ∧
      (plan.compare.bind (·.method)) ∈ [some "diff_abs", some "diff_pct"] then
    buildV2CompareSql (plan.compare.getD {}) filters groupBy metrics semantic orderBy limit
  else
  let selectParts := groupBy.map (fun dim =>
    dimensionExpression dim semantic "base" ++ " AS " ++ dim)
  let groupExprs := groupBy.map (dimensionExpression · semantic "base")
  let metricPairs :=
    if aggregate = some "count" then [("COUNT(*) AS count", "count")]
    else
      metrics.map (fun metric =>
        if metric = "count" ∨ metric = "*" then ("COUNT(*) AS count", "count")
        else
          match lookupAssoc semantic.metrics metric with
          | some mo => (mo.sqlExpression ++ " AS " ++ metric, metric)
          | none => ("COUNT(*) AS " ++ metric, metric))
  let metricPairs :=
    if metricPairs = [] then [("COUNT(*) AS incidents", "incidents")] else metricPairs
  let metricExprs := metricPairs.map (·.1)
  let metricAliases := metricPairs.map (·.2)
  let selectClause := ", ".intercalate (selectParts ++ metricExprs)
  let whereClause := buildFilters filters semantic "base"
  let groupClause :=
    if groupExprs ≠ [] then "GROUP BY " ++ ", ".intercalate groupExprs else ""
  -- ordering defaults
  let orderBy :=
    if orderBy = [] ∧ "month" ∈ groupBy then
      [({ field := some "month", dir := some "asc" } : OrderSpec)] ++
        (match plan.panel_by with
         | some p => if p ≠ "" ∧ p ∈ groupBy then
             [({ field := some p, dir := some "asc" } : OrderSpec)] else []
         | none => [])
    else orderBy
  let orderBy :=
    if orderBy = [] ∧ (compareType = some "mom" ∨ compareType = some "yoy") then
      [({ field := some "month", dir := some "asc" } : OrderSpec)]
    else orderBy
  let orderBy :=
    if orderBy = [] then
      match plan.panel_by with
      | some p => if p ≠ "" ∧ p ∈ groupBy then
          [({ field := some p, dir := some "asc" } : OrderSpec)] else []
      | none => []
    else orderBy
  if compareType = some "mom" ∨ compareType = some "yoy" then
    let compareDict := plan.compare.getD {}
    let lagPeriod := compareDict.periods.getD 1
    let monthExpr := dimensionExpression "month" semantic "base"
    let aggSelect := selectParts ++ [monthExpr ++ " AS month"]
    let aggMetrics := ["COUNT(*) AS incidents"]
    let internalWindow := if compareType = some "mom" then plan.internal_window else none
    let aggFilters :=
      match internalWindow with
      | some iw =>
        if filters.any (fun f => f.field = some "month") then
          filters.map (fun f => if f.field = some "month" then iw else f)
        else filters ++ [iw]
      | none => filters
    let aggWhereClause :=
      match internalWindow with
      | some _ => buildFilters aggFilters semantic "base"
      | none => whereClause
    let aggSql := "SELECT " ++ ", ".intercalate (aggSelect ++ aggMetrics) ++ " FROM base"
    let aggGroupExprs :=
      if monthExpr ∈ groupExprs then groupExprs else groupExprs ++ [monthExpr]
    let aggSql := if aggWhereClause ≠ "" then aggSql ++ " " ++ aggWhereClause else aggSql
    let aggSql :=
      if aggGroupExprs ≠ [] then aggSql ++ " GROUP BY " ++ ", ".intercalate aggGroupExprs
      else aggSql
    let partitionClause := buildPartitionClause groupBy
    let compareSql := baseCte ++ ", aggregated AS (" ++ aggSql ++ "), ranked AS (" ++
      "SELECT aggregated.*, LAG(incidents, " ++ toString lagPeriod ++ ") OVER (" ++
      partitionClause ++ " ORDER BY month) AS prior_incidents FROM aggregated)"
    let dimPfx := ", ".intercalate groupBy
    let pfx := if dimPfx ≠ "" then dimPfx ++ ", " else ""
    let finalSql := compareSql ++ " SELECT " ++ pfx ++
      "incidents, CASE WHEN prior_incidents IS NULL OR prior_incidents = 0 THEN NULL " ++
      "ELSE (incidents - prior_incidents) * 100.0 / prior_incidents END AS change_pct, month FROM ranked"
    let finalSql :=
      match internalWindow with
      | some _ =>
        let monthFilters := filters.filter (fun f => f.field = some "month")
        let monthClause := if monthFilters ≠ [] then buildFilters monthFilters semantic "" else ""
        if monthClause ≠ "" then finalSql ++ " " ++ monthClause else finalSql
      | none => finalSql
    let finalSql := if orderBy ≠ [] then finalSql ++ " " ++ buildOrderClause orderBy else finalSql
    withLimit finalSql limit
  else
  let aggQuery := "SELECT " ++ selectClause ++ " FROM base"
  let aggQuery := if whereClause ≠ "" then aggQuery ++ " " ++ whereClause else aggQuery
  let aggQuery := if groupClause ≠ "" then aggQuery ++ " " ++ groupClause else aggQuery
  let shareRequested := plan.share_city && isSingleMonthEquality filters
  let shareRequested := if plan.compare.isSome then false else shareRequested
  let sql :=
    if shareRequested then
      let cteSql := baseCte ++ ", aggregated AS (" ++ aggQuery ++ ")"
      let metricAlias := metricAliases.headD "incidents"
      let finalSelectParts := groupBy ++ metricAliases ++
        [metricAlias ++ " * 1.0 / NULLIF(SUM(" ++ metricAlias ++ ") OVER (), 0) AS share_city"]
      cteSql ++ " SELECT " ++ ", ".intercalate finalSelectParts ++ " FROM aggregated"
    else baseCte ++ " " ++ aggQuery
  let sql := if orderBy ≠ [] then sql ++ " " ++ buildOrderClause orderBy else sql
  withLimit sql limit

end SQLB

/-! ## Claim-side auxiliary definitions -/

namespace NQL

/-- A date "shifted by exactly 3 months" in the sense of the spec sentence
for quarter windows (month arithmetic, day preserved). -/
def specShiftThreeMonths (d : Date) : Date :=
  let base := d.month - 1 + 3
  ⟨d.year + base / 12, base % 12 + 1, d.day⟩

/-- The quarter-bounds branch condition of `_ensure_quarter_bounds`. -/
def quarterCond (q : NQLQuery) : Prop :=
  q.time.window.type = WindowType.quarter ∧ q.flags.quarter_exclusive_end = true

/-- The trend-grouping branch condition of `_ensure_trend_grouping`. -/
def trendCond (q : NQLQuery) : Prop :=
  q.intent = "trend" ∧ q.flags.require_grouping_for_trend = true

/-- The mom-expansion branch condition of `_ensure_mom_expand_prior`. -/
def momCond (q : NQLQuery) : Prop :=
  ∃ c, q.compare = some c ∧ c.type = some "mom" ∧
    q.time.window.type = WindowType.single_month

instance (q : NQLQuery) : Decidable (quarterCond q) := by unfold quarterCond; infer_instance

instance (q : NQLQuery) : Decidable (trendCond q) := by unfold trendCond; infer_instance

instance (q : NQLQuery) : Decidable (momCond q) := by
  unfold momCond
  exact match h : q.compare with
    | none => .isFalse (by simp [h])
    | some c => decidable_of_iff
        (c.type = some "mom" ∧ q.time.window.type = WindowType.single_month)
        (by simp [h])

/-- The critic-pass tags `validate_nql` appends on a successful run, as a
function of the (final) query state. -/
def stepTags (q : NQLQuery) : List String :=
  (if quarterCond q then ["quarter_exclusive_end"] else []) ++
  (if trendCond q then ["trend_grouping"] else []) ++
  (if momCond q then ["mom_single_month_expand_prior"] else []) ++
  ["like_passthrough"] ++
  (if q.sort = [] then [] else ["sort_safety"]) ++
  ["limit_clamp"]

/-- The fixpoint characterisation of `validate_nql` outputs: a query in
this set passes every critic unchanged. -/
def Normalized (q : NQLQuery) : Prop :=
  q.metrics ≠ [] ∧
  (quarterCond q → ∃ s e, q.time.window.start = some s ∧ q.time.window.«end» = some e ∧
    e = nextQuarterStart s ∧ q.time.window.exclusive_end = true) ∧
  (trendCond q → ("month" ∈ q.group_by ∨ "month" ∈ q.dimensions) ∧
    ¬(q.time.window.type = WindowType.relative_months ∧ q.time.window.n = none)) ∧
  (∀ c, q.compare = some c → c.type = some "mom" →
    q.time.window.type = WindowType.single_month → c.internal_window = some ⟨true⟩) ∧
  (q.filters.all fun f => !likePatternOps.contains f.op || f.type == "text_raw") = true ∧
  (q.sort ≠ [] →
    (q.sort.all fun s => (q.metrics.map (·.«alias»)).contains s.«by» ||
      (q.dimensions ++ q.group_by ++ ["month"]).contains s.«by») = true) ∧
  (1 ≤ q.flags.rowcap_hint ∧ q.flags.rowcap_hint ≤ SERVER_MAX_LIMIT ∧
    1 ≤ q.limit ∧ q.limit ≤ q.flags.rowcap_hint) ∧
  (q.provenance.critic_pass.Nodup ∧ ∀ t ∈ stepTags q, t ∈ q.provenance.critic_pass)

end NQL

namespace SQLB

open Resolver (LimitValue)

/-- Modelled from the spec: the result-set semantics of
`ROW_NUMBER() OVER (PARTITION BY key ORDER BY rank DESC)` filtered to
`rn <= k` over pre-aggregated rows carrying a partition key (the values
of all group-by dimensions except the last) and a rank value: inside
each partition the rows are ordered by rank descending and the first `k`
survive. -/
def topKSurvivors (k : Nat) (rows : List (List String × Int))
    (key : List String) : List Int :=
  ((rows.filter (fun r => r.1 = key)).map (·.2)).mergeSort (fun a b => decide (b ≤ a))
    |>.take k

/-- Substring containment on strings (used to state that an emitted SQL
text has no `LIMIT` clause). -/
def strContains (s pat : String) : Bool :=
  s.toList.tails.any (fun t => pat.toList.isPrefixOf t)

/-- `setLimit` updates the raw limit entry of a builder plan. -/
def setLimit (plan : BPlan) (lv : LimitValue) : BPlan :=
  { plan with limit := lv }

end SQLB

/-! ## Concrete instances used by counterexamples and witnesses -/

namespace NQL

/-- The standard incident-count metric of the prototype. -/
def metricIncidents : Metric := ⟨"incidents", "count", "incidents"⟩

/-- A quarter-window query whose `end` is `start` shifted by exactly three
months, but whose `start` (2023-02-01) is not the first day of a quarter. -/
def quarterShiftQuery : NQLQuery :=
  { nql_version := "0.1", intent := "aggregate", dataset := "la_crime",
    metrics := [metricIncidents],
    time := { grain := "month",
              window := { type := .quarter, start := some ⟨2023, 2, 1⟩,
                          «end» := some ⟨2023, 5, 1⟩ } } }

/-- A well-formed Q2-2023 quarter-window query. -/
def quarterAlignedQuery : NQLQuery :=
  { nql_version := "0.1", intent := "aggregate", dataset := "la_crime",
    metrics := [metricIncidents],
    time := { grain := "month",
              window := { type := .quarter, start := some ⟨2023, 4, 1⟩,
                          «end» := some ⟨2023, 7, 1⟩ } } }

/-- The absolute-baseline compare payload of
`tests/v2/test_pre_post_ab.py::test_absolute_baseline_missing_bounds`:
`compare.baseline == "absolute"` with `start`/`end` missing. -/
def absoluteBaselineQuery : NQLQuery :=
  { nql_version := "0.2", intent := "compare", dataset := "la_crime",
    metrics := [metricIncidents],
    time := { grain := "month",
              window := { type := .absolute, start := some ⟨2023, 6, 1⟩,
                          «end» := some ⟨2023, 12, 1⟩ } },
    compare := some { baseline := some "absolute", method := some "diff_pct" } }

/-- A trend query whose `dimensions` (not `group_by`) already contain
`month`. -/
def trendDimensionsQuery : NQLQuery :=
  { nql_version := "0.1", intent := "trend", dataset := "la_crime",
    metrics := [metricIncidents],
    dimensions := ["month"],
    time := { grain := "month", window := { type := .relative_months } } }

/-- A trend query with no `month` grouping and an unset
`relative_months` count. -/
def trendPlainQuery : NQLQuery :=
  { nql_version := "0.1", intent := "trend", dataset := "la_crime",
    metrics := [metricIncidents],
    time := { grain := "month", window := { type := .relative_months } } }

/-- A plain aggregate query used to witness idempotence. -/
def plainAggregateQuery : NQLQuery :=
  { nql_version := "0.1", intent := "aggregate", dataset := "la_crime",
    metrics := [metricIncidents],
    time := { grain := "month",
              window := { type := .absolute, start := some ⟨2023, 1, 1⟩,
                          «end» := some ⟨2023, 6, 1⟩ } } }

/-- The validator's output on `plainAggregateQuery` (row cap clamped to
the server maximum, audit tags recorded). -/
def plainAggregateValidated : NQLQuery :=
  { plainAggregateQuery with
    flags := { plainAggregateQuery.flags with rowcap_hint := 2000 },
    provenance := { plainAggregateQuery.provenance with
      critic_pass := ["like_passthrough", "limit_clamp"] } }

end NQL

namespace SQLB

/-- The semantic model of the prototype's tests (`la_crime` table with
`area` and `crime_type` dimensions and the incident-count metric). -/
def crimeSemantic : SemanticModel :=
  { table := "la_crime_raw",
    dimensions := [("month", ⟨"month", "month"⟩), ("area", ⟨"area", "AREA NAME"⟩),
                   ("crime_type", ⟨"crime_type", "Crm Cd Desc"⟩)],
    metrics := [("incidents", ⟨"incidents", "count"⟩)] }

/-- A `top_k_within_group{k:3}` plan over `["area", "crime_type"]`. -/
def topKPlan : BPlan :=
  { metrics := ["incidents"], group_by := ["area", "crime_type"],
    top_k_within_group := some { k := some 3, «by» := some "incidents" } }

/-- A resolved plan with an unset limit (the resolver maps `None` to 0). -/
def unlimitedPlan : BPlan :=
  { metrics := ["incidents"], group_by := ["area"],
    filters := [{ field := some "area", op := some "=",
                  value := .scalar (.str "Hollywood") }],
    order_by := some [{ field := some "incidents", dir := some "desc" }],
    limit := .int 0 }

end SQLB

/-- Decidable equality for `Except` results (used to evaluate the
embedded functions at concrete inputs). -/
instance {ε α : Type} [DecidableEq ε] [DecidableEq α] : DecidableEq (Except ε α)
  | .ok a, .ok b => decidable_of_iff (a = b) (by simp)
  | .error a, .error b => decidable_of_iff (a = b) (by simp)
  | .ok _, .error _ => .isFalse (by simp)
  | .error _, .ok _ => .isFalse (by simp)

/-! ## Properties of the deduplication loop -/

namespace NQL

theorem pyDedupAux_cons_mem {seen xs : List String} {x : String} (h : x ∈ seen) :
    pyDedupAux seen (x :: xs) = pyDedupAux seen xs := by
  show (if seen.contains x = true then pyDedupAux seen xs
    else x :: pyDedupAux (x :: seen) xs) = pyDedupAux seen xs
  rw [if_pos (List.elem_eq_true_of_mem h)]

theorem pyDedupAux_cons_not_mem {seen xs : List String} {x : String} (h : x ∉ seen) :
    pyDedupAux seen (x :: xs) = x :: pyDedupAux (x :: seen) xs := by
  show (if seen.contains x = true then pyDedupAux seen xs
    else x :: pyDedupAux (x :: seen) xs) = x :: pyDedupAux (x :: seen) xs
  rw [if_neg (fun hc => h (List.mem_of_elem_eq_true hc))]

theorem mem_pyDedupAux {a : String} :
    ∀ {seen l : List String}, a ∈ pyDedupAux seen l ↔ a ∈ l ∧ a ∉ seen := by
  intro seen l
  induction l generalizing seen with
  | nil => simp [pyDedupAux]
  | cons x xs ih =>
    by_cases hx : x ∈ seen
    · rw [pyDedupAux_cons_mem hx, ih, List.mem_cons]
      constructor
      · rintro ⟨h1, h2⟩; exact ⟨Or.inr h1, h2⟩
      · rintro ⟨h1 | h1, h2⟩
        · exact absurd (h1 ▸ hx) h2
        · exact ⟨h1, h2⟩
    · rw [pyDedupAux_cons_not_mem hx]
      simp only [List.mem_cons, ih]
      constructor
      · rintro (rfl | ⟨h1, h2⟩)
        · exact ⟨Or.inl rfl, hx⟩
        · exact ⟨Or.inr h1, fun hs => h2 (Or.inr hs)⟩
      · rintro ⟨rfl | h1, h2⟩
        · exact Or.inl rfl
        · by_cases hax : a = x
          · exact Or.inl hax
          · exact Or.inr ⟨h1, fun hs => hs.elim hax h2⟩

theorem pyDedupAux_nodup : ∀ (seen l : List String), (pyDedupAux seen l).Nodup := by
  intro seen l
  induction l generalizing seen with
  | nil => simp [pyDedupAux]
  | cons x xs ih =>
    by_cases hx : x ∈ seen
    · rw [pyDedupAux_cons_mem hx]; exact ih seen
    · rw [pyDedupAux_cons_not_mem hx, List.nodup_cons]
      refine ⟨fun hmem => ?_, ih _⟩
      exact (mem_pyDedupAux.mp hmem).2 (List.mem_cons_self _ _)

theorem pyDedupAux_all_seen : ∀ {seen l : List String},
    (∀ x ∈ l, x ∈ seen) → pyDedupAux seen l = [] := by
  intro seen l h
  induction l with
  | nil => rfl
  | cons x xs ih =>
    have hx : x ∈ seen := h x (List.mem_cons_self _ _)
    rw [pyDedupAux_cons_mem hx]
    exact ih (fun y hy => h y (List.mem_cons_of_mem _ hy))

theorem pyDedupAux_append_eq : ∀ {m p seen : List String},
    m.Nodup → (∀ x ∈ m, x ∉ seen) → (∀ x ∈ p, x ∈ m ∨ x ∈ seen) →
    pyDedupAux seen (m ++ p) = m := by
  intro m
  induction m with
  | nil =>
    intro p seen _ _ hp
    refine pyDedupAux_all_seen (fun x hx => ?_)
    rcases hp x hx with h | h
    · exact absurd h (List.not_mem_nil x)
    · exact h
  | cons y m' ih =>
    intro p seen hnd hms hp
    have hy : y ∉ seen := hms y (List.mem_cons_self _ _)
    rw [List.cons_append, pyDedupAux_cons_not_mem hy]
    have hnd' := (List.nodup_cons.mp hnd)
    congr 1
    refine ih hnd'.2 ?_ ?_
    · intro x hx hmem
      rcases List.mem_cons.mp hmem with rfl | hmem
      · exact hnd'.1 hx
      · exact hms x (List.mem_cons_of_mem _ hx) hmem
    · intro x hx
      rcases hp x hx with h | h
      · rcases List.mem_cons.mp h with rfl | h
        · exact Or.inr (List.mem_cons_self _ _)
        · exact Or.inl h
      · exact Or.inr (List.mem_cons_of_mem _ h)

theorem mem_pyDedup {a : String} {l : List String} : a ∈ pyDedup l ↔ a ∈ l := by
  simp [pyDedup, mem_pyDedupAux]

theorem pyDedup_nodup (l : List String) : (pyDedup l).Nodup :=
  pyDedupAux_nodup [] l

theorem pyDedup_append_self {m p : List String} (hm : m.Nodup)
    (hp : ∀ x ∈ p, x ∈ m) : pyDedup (m ++ p) = m :=
  pyDedupAux_append_eq hm (by simp) (fun x hx => Or.inl (hp x hx))

/-! ## Specifications of the validator steps -/

theorem parseDate_ok {raw : Option Date} {c : String} {d : Date} :
    parseDate raw c = .ok d ↔ raw = some d := by
  cases raw <;> simp [parseDate]

theorem ensureQuarterBounds_ok {q q1 : NQLQuery} {a1 : List String}
    (h : ensureQuarterBounds q = .ok (q1, a1)) :
    (∃ b : Bool, q1 = { q with time := { q.time with window :=
        { q.time.window with exclusive_end := b } } }) ∧
    (quarterCond q →
      (∃ s e, q.time.window.start = some s ∧ q.time.window.«end» = some e ∧
        e = nextQuarterStart s) ∧
      q1.time.window.exclusive_end = true ∧ a1 = ["quarter_exclusive_end"]) ∧
    (¬ quarterCond q → q1 = q ∧ a1 = []) := by
  unfold ensureQuarterBounds at h
  split at h
  case isFalse hc =>
    rcases h with ⟨rfl, rfl⟩
    exact ⟨⟨q.time.window.exclusive_end, rfl⟩, fun hq => absurd hq hc, fun _ => ⟨rfl, rfl⟩⟩
  case isTrue hc =>
    cases hps : parseDate q.time.window.start "quarter.start" with
    | error msg => rw [hps] at h; exact absurd h (by simp)
    | ok s =>
      rw [hps] at h
      cases hpe : parseDate q.time.window.«end» "quarter.end" with
      | error msg => rw [hpe] at h; exact absurd h (by simp)
      | ok e =>
        rw [hpe] at h
        simp only at h
        split at h
        case isFalse => exact absurd h (by simp)
        case isTrue heq =>
          have hs := parseDate_ok.mp hps
          have he := parseDate_ok.mp hpe
          split at h
          case isTrue hx =>
            rcases h with ⟨rfl, rfl⟩
            refine ⟨⟨q.time.window.exclusive_end, rfl⟩,
              fun _ => ⟨⟨s, e, hs, he, heq⟩, hx, rfl⟩, fun hq => absurd hc hq⟩
          case isFalse hx =>
            rcases h with ⟨rfl, rfl⟩
            exact ⟨⟨true, rfl⟩, fun _ => ⟨⟨s, e, hs, he, heq⟩, rfl, rfl⟩,
              fun hq => absurd hc hq⟩

theorem ensureQuarterBounds_raises {q : NQLQuery}
    (hc : quarterCond q) {s e : Date}
    (hs : q.time.window.start = some s) (he : q.time.window.«end» = some e)
    (hne : e ≠ nextQuarterStart s) :
    ∃ msg, ensureQuarterBounds q = .error msg := by
  have hc' : q.time.window.type = WindowType.quarter ∧
      q.flags.quarter_exclusive_end = true := hc
  unfold ensureQuarterBounds
  rw [if_pos hc', hs, he]
  simp only [parseDate]
  rw [if_neg hne]
  exact ⟨_, rfl⟩

theorem ensureTrendGrouping_spec {q q2 : NQLQuery} {a2 : List String}
    (h : ensureTrendGrouping q = (q2, a2)) :
    (∃ gb n, q2 = { q with group_by := gb,
                           time := { q.time with window := { q.time.window with n := n } } }) ∧
    (trendCond q →
      ("month" ∈ q2.group_by ∨ "month" ∈ q2.dimensions) ∧
      ¬(q2.time.window.type = WindowType.relative_months ∧ q2.time.window.n = none) ∧
      a2 = ["trend_grouping"] ∧
      ("month" ∉ q.group_by ∧ "month" ∉ q.dimensions → q2.group_by = "month" :: q.group_by) ∧
      ("month" ∈ q.group_by ∨ "month" ∈ q.dimensions → q2.group_by = q.group_by) ∧
      (q.time.window.type = WindowType.relative_months ∧ q.time.window.n = none →
        q2.time.window.n = some 12)) ∧
    (¬ trendCond q → q2 = q ∧ a2 = []) := by
  unfold ensureTrendGrouping at h
  split at h
  case isFalse hc =>
    rcases h with ⟨rfl, rfl⟩
    exact ⟨⟨q.group_by, q.time.window.n, rfl⟩, fun hq => absurd hq hc, fun _ => ⟨rfl, rfl⟩⟩
  case isTrue hc =>
    dsimp only at h
    by_cases hmem : "month" ∈ q.group_by ∨ "month" ∈ q.dimensions <;>
      [rw [if_pos hmem] at h; rw [if_neg hmem] at h] <;>
      by_cases hrel : q.time.window.type = WindowType.relative_months ∧
        q.time.window.n = none <;>
      [skip; skip; skip; skip] <;>
      first
        | rw [if_pos hrel] at h | rw [if_neg hrel] at h
    all_goals rcases h with ⟨rfl, rfl⟩
    · refine ⟨⟨q.group_by, some 12, rfl⟩, fun _ => ⟨by simpa using hmem, by simp, rfl,
        fun hno => absurd hmem (by simpa using hno), fun _ => rfl, fun _ => rfl⟩,
        fun hq => absurd hc hq⟩
    · refine ⟨⟨q.group_by, q.time.window.n, rfl⟩, fun _ => ⟨by simpa using hmem,
        by simpa using hrel, rfl, fun hno => absurd hmem (by simpa using hno),
        fun _ => rfl, fun hr => absurd hr hrel⟩, fun hq => absurd hc hq⟩
    · exact ⟨⟨"month" :: q.group_by, some 12, rfl⟩,
        fun _ => ⟨Or.inl (by simp), by simp, rfl, fun _ => rfl,
          fun hyes => absurd hyes hmem, fun _ => rfl⟩,
        fun hq => absurd hc hq⟩
    · exact ⟨⟨"month" :: q.group_by, q.time.window.n, rfl⟩,
        fun _ => ⟨Or.inl (by simp), by simpa using hrel, rfl, fun _ => rfl,
          fun hyes => absurd hyes hmem, fun hr => absurd hr hrel⟩,
        fun hq => absurd hc hq⟩

theorem ensureMomExpandPrior_spec {q q3 : NQLQuery} {a3 : List String}
    (h : ensureMomExpandPrior q = (q3, a3)) :
    (∃ cmp, q3 = { q with compare := cmp }) ∧
    (momCond q →
      (∃ c, q.compare = some c ∧
        q3.compare = some { c with internal_window := some ⟨true⟩ }) ∧
      a3 = ["mom_single_month_expand_prior"]) ∧
    (¬ momCond q → q3 = q ∧ a3 = []) := by
  unfold ensureMomExpandPrior at h
  cases hcmp : q.compare with
  | none =>
    rw [hcmp] at h
    dsimp only at h
    rcases h with ⟨rfl, rfl⟩
    refine ⟨⟨q.compare, rfl⟩, fun hm => ?_, fun _ => ⟨rfl, rfl⟩⟩
    rcases hm with ⟨c, hc, _⟩
    exact absurd (hcmp ▸ hc) (by simp)
  | some c =>
    rw [hcmp] at h
    dsimp only at h
    split at h
    next hcc =>
      have hmom : momCond q := ⟨c, hcmp, hcc.1, hcc.2⟩
      rcases h with ⟨rfl, rfl⟩
      exact ⟨⟨_, rfl⟩, fun _ => ⟨⟨c, rfl, by simp⟩, rfl⟩, fun hn => absurd hmom hn⟩
    next hcc =>
      rcases h with ⟨rfl, rfl⟩
      refine ⟨⟨q.compare, rfl⟩, fun hm => ?_, fun _ => ⟨rfl, rfl⟩⟩
      rcases hm with ⟨c2, hc2, ht, hw⟩
      rw [hcmp] at hc2
      cases hc2
      exact absurd ⟨ht, hw⟩ hcc

theorem validateLikeFilters_ok {q : NQLQuery} {a4 : List String}
    (h : validateLikeFilters q = .ok a4) :
    (q.filters.all fun f => !likePatternOps.contains f.op || f.type == "text_raw") = true ∧
    a4 = ["like_passthrough"] := by
  unfold validateLikeFilters at h
  split at h
  case isTrue hcond => cases h; exact ⟨hcond, rfl⟩
  case isFalse => exact absurd h (by simp)

theorem validateLikeFilters_of {q : NQLQuery}
    (hcond : (q.filters.all fun f =>
      !likePatternOps.contains f.op || f.type == "text_raw") = true) :
    validateLikeFilters q = .ok ["like_passthrough"] := by
  unfold validateLikeFilters
  rw [if_pos hcond]

theorem validateSort_ok {q : NQLQuery} {a5 : List String}
    (h : validateSort q = .ok a5) :
    (q.sort = [] ∧ a5 = []) ∨
    (q.sort ≠ [] ∧
      (q.sort.all fun s => (q.metrics.map (·.«alias»)).contains s.«by» ||
        (q.dimensions ++ q.group_by ++ ["month"]).contains s.«by») = true ∧
      a5 = ["sort_safety"]) := by
  unfold validateSort at h
  split at h
  case isTrue hnil => cases h; exact Or.inl ⟨hnil, rfl⟩
  case isFalse hnil =>
    dsimp only at h
    split at h
    case isTrue hcond => cases h; exact Or.inr ⟨hnil, hcond, rfl⟩
    case isFalse => exact absurd h (by simp)

theorem validateSort_of_nil {q : NQLQuery} (hnil : q.sort = []) :
    validateSort q = .ok [] := by
  unfold validateSort
  rw [if_pos hnil]

theorem validateSort_of_all {q : NQLQuery} (hnil : q.sort ≠ [])
    (hcond : (q.sort.all fun s => (q.metrics.map (·.«alias»)).contains s.«by» ||
      (q.dimensions ++ q.group_by ++ ["month"]).contains s.«by») = true) :
    validateSort q = .ok ["sort_safety"] := by
  unfold validateSort
  rw [if_neg hnil, if_pos hcond]

theorem clampLimit_eq (q : NQLQuery) :
    clampLimit q =
      ({ q with
          flags := { q.flags with
                     rowcap_hint := min (max 1 q.flags.rowcap_hint) SERVER_MAX_LIMIT },
          limit := min (min (max 1 q.limit)
            (min (max 1 q.flags.rowcap_hint) SERVER_MAX_LIMIT)) SERVER_MAX_LIMIT },
       ["limit_clamp"]) := rfl

theorem clampLimit_bounds (q : NQLQuery) :
    1 ≤ (clampLimit q).1.flags.rowcap_hint ∧
    (clampLimit q).1.flags.rowcap_hint ≤ SERVER_MAX_LIMIT ∧
    1 ≤ (clampLimit q).1.limit ∧
    (clampLimit q).1.limit ≤ (clampLimit q).1.flags.rowcap_hint := by
  simp only [clampLimit, SERVER_MAX_LIMIT]
  omega

theorem clampLimit_fix {q : NQLQuery}
    (h1 : 1 ≤ q.flags.rowcap_hint) (h2 : q.flags.rowcap_hint ≤ SERVER_MAX_LIMIT)
    (h3 : 1 ≤ q.limit) (h4 : q.limit ≤ q.flags.rowcap_hint) :
    clampLimit q = (q, ["limit_clamp"]) := by
  have h2' : q.flags.rowcap_hint ≤ (2000 : Int) := h2
  have e1 : min (max 1 q.flags.rowcap_hint) SERVER_MAX_LIMIT = q.flags.rowcap_hint := by
    show min (max 1 q.flags.rowcap_hint) (2000 : Int) = q.flags.rowcap_hint
    omega
  have e2 : min (min (max 1 q.limit) q.flags.rowcap_hint) SERVER_MAX_LIMIT = q.limit := by
    show min (min (max 1 q.limit) q.flags.rowcap_hint) (2000 : Int) = q.limit
    omega
  rw [clampLimit_eq, e1, e2]

/-! ## Fixpoint lemmas: a normalised query passes every critic unchanged -/

theorem ensureQuarterBounds_fix {z : NQLQuery}
    (hq : quarterCond z → ∃ s e, z.time.window.start = some s ∧
      z.time.window.«end» = some e ∧ e = nextQuarterStart s ∧
      z.time.window.exclusive_end = true) :
    ensureQuarterBounds z =
      .ok (z, if quarterCond z then ["quarter_exclusive_end"] else []) := by
  by_cases hc : quarterCond z
  · obtain ⟨s, e, hs, he, heq, hex⟩ := hq hc
    have hc' : z.time.window.type = WindowType.quarter ∧
        z.flags.quarter_exclusive_end = true := hc
    unfold ensureQuarterBounds
    rw [if_pos hc', hs, he]
    simp only [parseDate]
    rw [if_pos heq, if_pos hex, if_pos hc]
  · have hc' : ¬(z.time.window.type = WindowType.quarter ∧
        z.flags.quarter_exclusive_end = true) := hc
    unfold ensureQuarterBounds
    rw [if_neg hc', if_neg hc]

theorem ensureTrendGrouping_fix {z : NQLQuery}
    (ht : trendCond z → ("month" ∈ z.group_by ∨ "month" ∈ z.dimensions) ∧
      ¬(z.time.window.type = WindowType.relative_months ∧ z.time.window.n = none)) :
    ensureTrendGrouping z = (z, if trendCond z then ["trend_grouping"] else []) := by
  by_cases hc : trendCond z
  · obtain ⟨hmem, hrel⟩ := ht hc
    have hc' : z.intent = "trend" ∧ z.flags.require_grouping_for_trend = true := hc
    unfold ensureTrendGrouping
    rw [if_pos hc', if_pos hc]
    dsimp only
    rw [if_pos hmem, if_neg hrel]
  · have hc' : ¬(z.intent = "trend" ∧ z.flags.require_grouping_for_trend = true) := hc
    unfold ensureTrendGrouping
    rw [if_neg hc', if_neg hc]

theorem ensureMomExpandPrior_fix {z : NQLQuery}
    (hmom : ∀ c, z.compare = some c → c.type = some "mom" →
      z.time.window.type = WindowType.single_month → c.internal_window = some ⟨true⟩) :
    ensureMomExpandPrior z =
      (z, if momCond z then ["mom_single_month_expand_prior"] else []) := by
  unfold ensureMomExpandPrior
  cases hcmp : z.compare with
  | none =>
    rw [if_neg (fun hm => by rcases hm with ⟨c, hc, _⟩; rw [hcmp] at hc; cases hc)]
  | some c =>
    dsimp only
    by_cases hcc : c.type = some "mom" ∧ z.time.window.type = WindowType.single_month
    · have hmz : momCond z := ⟨c, hcmp, hcc.1, hcc.2⟩
      rw [if_pos hcc, if_pos hmz]
      have hiw := hmom c hcmp hcc.1 hcc.2
      have hceq : { c with internal_window := some ⟨true⟩ } = c := by
        cases c; simp_all
      rw [hceq, ← hcmp]
    · have hmz : ¬ momCond z := by
        rintro ⟨c2, hc2, ht2, hw2⟩
        rw [hcmp] at hc2; cases hc2
        exact hcc ⟨ht2, hw2⟩
      rw [if_neg hcc, if_neg hmz]

theorem validate_nql_fix {z : NQLQuery}
    (hm : z.metrics ≠ [])
    (hq : quarterCond z → ∃ s e, z.time.window.start = some s ∧
      z.time.window.«end» = some e ∧ e = nextQuarterStart s ∧
      z.time.window.exclusive_end = true)
    (ht : trendCond z → ("month" ∈ z.group_by ∨ "month" ∈ z.dimensions) ∧
      ¬(z.time.window.type = WindowType.relative_months ∧ z.time.window.n = none))
    (hmom : ∀ c, z.compare = some c → c.type = some "mom" →
      z.time.window.type = WindowType.single_month → c.internal_window = some ⟨true⟩)
    (hlike : (z.filters.all fun f =>
      !likePatternOps.contains f.op || f.type == "text_raw") = true)
    (hsort : z.sort ≠ [] → (z.sort.all fun s =>
      (z.metrics.map (·.«alias»)).contains s.«by» ||
      (z.dimensions ++ z.group_by ++ ["month"]).contains s.«by») = true)
    (hl1 : 1 ≤ z.flags.rowcap_hint) (hl2 : z.flags.rowcap_hint ≤ SERVER_MAX_LIMIT)
    (hl3 : 1 ≤ z.limit) (hl4 : z.limit ≤ z.flags.rowcap_hint)
    (hnd : z.provenance.critic_pass.Nodup)
    (hsub : ∀ t ∈ stepTags z, t ∈ z.provenance.critic_pass) :
    validate_nql z = .ok z := by
  have h5 : validateSort z = .ok (if z.sort = [] then [] else ["sort_safety"]) := by
    by_cases hnil : z.sort = []
    · rw [if_pos hnil]; exact validateSort_of_nil hnil
    · rw [if_neg hnil]; exact validateSort_of_all hnil (hsort hnil)
  have hmerge : pyDedup (z.provenance.critic_pass ++
      ((if quarterCond z then ["quarter_exclusive_end"] else []) ++
       (if trendCond z then ["trend_grouping"] else []) ++
       (if momCond z then ["mom_single_month_expand_prior"] else []) ++
       ["like_passthrough"] ++
       (if z.sort = [] then [] else ["sort_safety"]) ++
       ["limit_clamp"])) = z.provenance.critic_pass := by
    refine pyDedup_append_self hnd (fun x hx => hsub x ?_)
    simpa [stepTags] using hx
  unfold validate_nql
  rw [if_neg hm, ensureQuarterBounds_fix hq]
  dsimp only
  rw [ensureTrendGrouping_fix ht]
  dsimp only
  rw [ensureMomExpandPrior_fix hmom]
  dsimp only
  rw [validateLikeFilters_of hlike]
  dsimp only
  rw [h5]
  dsimp only
  rw [clampLimit_fix hl1 hl2 hl3 hl4]
  dsimp only
  rw [hmerge]

/-! ## Forward specification of a successful validator run -/

theorem validate_nql_ok_spec {q z : NQLQuery} (h : validate_nql q = .ok z) :
    q.metrics ≠ [] ∧
    z.metrics = q.metrics ∧ z.intent = q.intent ∧ z.dimensions = q.dimensions ∧
    z.filters = q.filters ∧ z.sort = q.sort ∧
    z.time.window.type = q.time.window.type ∧
    z.time.window.start = q.time.window.start ∧
    z.time.window.«end» = q.time.window.«end» ∧
    z.flags.quarter_exclusive_end = q.flags.quarter_exclusive_end ∧
    z.flags.require_grouping_for_trend = q.flags.require_grouping_for_trend ∧
    (quarterCond q →
      (∃ s e, q.time.window.start = some s ∧ q.time.window.«end» = some e ∧
        e = nextQuarterStart s) ∧
      z.time.window.exclusive_end = true) ∧
    (trendCond q →
      ("month" ∈ z.group_by ∨ "month" ∈ z.dimensions) ∧
      ¬(z.time.window.type = WindowType.relative_months ∧ z.time.window.n = none) ∧
      ("month" ∉ q.group_by ∧ "month" ∉ q.dimensions → z.group_by = "month" :: q.group_by) ∧
      ("month" ∈ q.group_by ∨ "month" ∈ q.dimensions → z.group_by = q.group_by) ∧
      (q.time.window.type = WindowType.relative_months ∧ q.time.window.n = none →
        z.time.window.n = some 12)) ∧
    (¬ trendCond q → z.group_by = q.group_by ∧ z.time.window.n = q.time.window.n) ∧
    (momCond q → ∃ c, q.compare = some c ∧
      z.compare = some { c with internal_window := some ⟨true⟩ }) ∧
    (¬ momCond q → z.compare = q.compare) ∧
    (z.filters.all fun f => !likePatternOps.contains f.op || f.type == "text_raw") = true ∧
    (z.sort ≠ [] → (z.sort.all fun s =>
      (z.metrics.map (·.«alias»)).contains s.«by» ||
      (z.dimensions ++ z.group_by ++ ["month"]).contains s.«by») = true) ∧
    (1 ≤ z.flags.rowcap_hint ∧ z.flags.rowcap_hint ≤ SERVER_MAX_LIMIT ∧
      1 ≤ z.limit ∧ z.limit ≤ z.flags.rowcap_hint) ∧
    z.provenance.critic_pass.Nodup ∧
    (∀ t ∈ stepTags q, t ∈ z.provenance.critic_pass) := by
  unfold validate_nql at h
  split at h
  case isTrue => exact absurd h (by simp)
  case isFalse hm =>
  cases h1 : ensureQuarterBounds q with
  | error msg => rw [h1] at h; exact absurd h (by simp)
  | ok p1 =>
  obtain ⟨q1, a1⟩ := p1
  rw [h1] at h
  dsimp only at h
  cases h2 : ensureTrendGrouping q1 with
  | mk q2 a2 =>
  rw [h2] at h
  dsimp only at h
  cases h3 : ensureMomExpandPrior q2 with
  | mk q3 a3 =>
  rw [h3] at h
  dsimp only at h
  cases h4 : validateLikeFilters q3 with
  | error msg => rw [h4] at h; exact absurd h (by simp)
  | ok a4 =>
  rw [h4] at h
  dsimp only at h
  cases h5 : validateSort q3 with
  | error msg => rw [h5] at h; exact absurd h (by simp)
  | ok a5 =>
  rw [h5] at h
  dsimp only at h
  rw [clampLimit_eq q3] at h
  dsimp only at h
  obtain ⟨⟨b1, hb1⟩, hq1pos, hq1neg⟩ := ensureQuarterBounds_ok h1
  obtain ⟨⟨gb, nv, hgb⟩, ht1pos, ht1neg⟩ := ensureTrendGrouping_spec h2
  obtain ⟨⟨cmp, hcmp⟩, hm1pos, hm1neg⟩ := ensureMomExpandPrior_spec h3
  obtain ⟨hlike, ha4⟩ := validateLikeFilters_ok h4
  have hsort5 := validateSort_ok h5
  subst hb1
  subst hgb
  subst hcmp
  injection h with hv
  subst hv
  refine ⟨hm, rfl, rfl, rfl, rfl, rfl, rfl, rfl, rfl, rfl, rfl,
    ?_, ?_, ?_, ?_, ?_, ?_, ?_, ?_, ?_, ?_⟩
  · -- quarter postcondition
    intro hqc
    obtain ⟨hex, hexcl, -⟩ := hq1pos hqc
    exact ⟨hex, by simpa using hexcl⟩
  · -- trend postcondition
    intro htc
    obtain ⟨hmem, hrel, -, hins, hpres, hn12⟩ := ht1pos htc
    refine ⟨by simpa using hmem, by simpa using hrel, ?_, ?_, ?_⟩
    · intro hno
      simpa using hins (by simpa using hno)
    · intro hyes
      simpa using hpres (by simpa using hyes)
    · intro hrc
      simpa using hn12 (by simpa using hrc)
  · -- no-trend frame
    intro htc
    obtain ⟨he, -⟩ := ht1neg htc
    constructor
    · have := congrArg NQLQuery.group_by he
      simpa using this
    · have := congrArg (fun w : NQLQuery => w.time.window.n) he
      simpa using this
  · -- mom postcondition
    intro hmc
    obtain ⟨⟨c, hc, hq3c⟩, -⟩ := hm1pos hmc
    refine ⟨c, by simpa using hc, by simpa using hq3c⟩
  · -- no-mom frame
    intro hmc
    obtain ⟨he, -⟩ := hm1neg hmc
    have := congrArg NQLQuery.compare he
    simpa using this
  · -- LIKE filters discipline
    exact hlike
  · -- sort discipline
    intro hne
    rcases hsort5 with ⟨hnil, -⟩ | ⟨-, hcond, -⟩
    · exact absurd hnil hne
    · exact hcond
  · -- limit bounds
    refine ⟨?_, ?_, ?_, ?_⟩ <;> simp only [SERVER_MAX_LIMIT] <;> omega
  · -- audit list has no duplicates
    exact pyDedup_nodup _
  · -- every appended tag is recorded
    intro t htag
    have ea1 : a1 = (if quarterCond q then ["quarter_exclusive_end"] else []) := by
      by_cases hc : quarterCond q
      · rw [if_pos hc]; exact (hq1pos hc).2.2
      · rw [if_neg hc]; exact (hq1neg hc).2
    have ea2 : a2 = (if trendCond q then ["trend_grouping"] else []) := by
      by_cases hc : trendCond q
      · rw [if_pos hc]; exact (ht1pos hc).2.2.1
      · rw [if_neg hc]; exact (ht1neg hc).2
    have ea3 : a3 = (if momCond q then ["mom_single_month_expand_prior"] else []) := by
      by_cases hc : momCond q
      · rw [if_pos hc]; exact (hm1pos hc).2
      · rw [if_neg hc]; exact (hm1neg hc).2
    have ea5 : a5 = (if q.sort = [] then [] else ["sort_safety"]) := by
      rcases hsort5 with ⟨hnil, ha5⟩ | ⟨hnil, -, ha5⟩
      · rw [if_pos hnil]; exact ha5
      · rw [if_neg hnil]; exact ha5
    have hts : stepTags q = a1 ++ a2 ++ a3 ++ a4 ++ a5 ++ ["limit_clamp"] := by
      rw [stepTags, ea1, ea2, ea3, ha4, ea5]
    refine mem_pyDedup.mpr (List.mem_append.mpr (Or.inr ?_))
    exact hts ▸ htag

theorem stepTags_congr {z q : NQLQuery}
    (hqq : quarterCond z ↔ quarterCond q) (htt : trendCond z ↔ trendCond q)
    (hmm : momCond z ↔ momCond q) (hss : z.sort = [] ↔ q.sort = []) :
    stepTags z = stepTags q := by
  unfold stepTags
  rw [if_congr hqq rfl rfl, if_congr htt rfl rfl, if_congr hmm rfl rfl,
    if_congr hss rfl rfl]

/-- **C7.** `validate_nql` is idempotent on its own output: whenever it
succeeds with result `z`, running it again on `z` succeeds and returns
`z` itself, and `z`'s `provenance.critic_pass` carries no duplicates (so
the second run adds none). -/
theorem C7_validate_nql_idempotent {q z : NQLQuery}
    (h : validate_nql q = .ok z) :
    validate_nql z = .ok z ∧ z.provenance.critic_pass.Nodup := by
  obtain ⟨hm, hme, hint, hdim, hfil, hsrt, hwt, hws, hwe, hfq, hfr,
    hqpos, htpos, htneg, hmpos, hmneg, hlike, hsort, hlim, hnd, htags⟩ :=
    validate_nql_ok_spec h
  have hqq : quarterCond z ↔ quarterCond q := by
    unfold quarterCond; rw [hwt, hfq]
  have htt : trendCond z ↔ trendCond q := by
    unfold trendCond; rw [hint, hfr]
  have hmm : momCond z ↔ momCond q := by
    constructor
    · rintro ⟨c, hzc, hct, hwt2⟩
      by_cases hmc : momCond q
      · exact hmc
      · rw [hmneg hmc] at hzc
        exact absurd ⟨c, hzc, hct, by rw [← hwt]; exact hwt2⟩ hmc
    · intro hmc
      obtain ⟨c0, hqc0, hzc0⟩ := hmpos hmc
      obtain ⟨c1, hc1, ht1, hw1⟩ := hmc
      rw [hqc0] at hc1
      cases hc1
      exact ⟨_, hzc0, ht1, by rw [hwt]; exact hw1⟩
  have hss : z.sort = [] ↔ q.sort = [] := by rw [hsrt]
  refine ⟨validate_nql_fix ?_ ?_ ?_ ?_ hlike hsort hlim.1 hlim.2.1 hlim.2.2.1
    hlim.2.2.2 hnd ?_, hnd⟩
  · rw [hme]; exact hm
  · intro hc
    obtain ⟨⟨s, e, hs, he, heq⟩, hexcl⟩ := hqpos (hqq.mp hc)
    exact ⟨s, e, by rw [hws]; exact hs, by rw [hwe]; exact he, heq, hexcl⟩
  · intro hc
    obtain ⟨hmem, hrel, -, -⟩ := htpos (htt.mp hc)
    exact ⟨hmem, hrel⟩
  · intro c hzc hct hwt2
    by_cases hmc : momCond q
    · obtain ⟨c0, hqc0, hzc0⟩ := hmpos hmc
      rw [hzc] at hzc0
      cases hzc0
      rfl
    · rw [hmneg hmc] at hzc
      exact absurd ⟨c, hzc, hct, by rw [← hwt]; exact hwt2⟩ hmc
  · intro t ht
    exact htags t (stepTags_congr hqq htt hmm hss ▸ ht)

/-- Witness for C7: the validator's output on a plain aggregate query is
a fixpoint of the validator, with a duplicate-free audit list. -/
theorem C7_validate_nql_idempotent_witness :
    validate_nql plainAggregateValidated = .ok plainAggregateValidated ∧
    plainAggregateValidated.provenance.critic_pass.Nodup :=
  C7_validate_nql_idempotent (q := plainAggregateQuery) (by decide)

/-- **C1 (counterexample).** `quarterShiftQuery` is a quarter window with
the exclusivity flag enabled and parseable dates whose `end` equals
`start` shifted by exactly 3 months, yet `validate_nql` raises: the claim
"validate_nql succeeds iff end = start + 3 months" fails, because the
validator compares against the first day of the *next quarter*
(2023-04-01 for a 2023-02-01 start), not `start + 3 months`. -/
theorem C1_quarter_shift_counterexample :
    quarterShiftQuery.time.window.type = WindowType.quarter ∧
    quarterShiftQuery.flags.quarter_exclusive_end = true ∧
    quarterShiftQuery.time.window.start = some ⟨2023, 2, 1⟩ ∧
    quarterShiftQuery.time.window.«end» =
      some (specShiftThreeMonths ⟨2023, 2, 1⟩) ∧
    (validate_nql quarterShiftQuery).isOk = false := by decide

/-- **C1 (amended).** For a quarter window with the exclusivity flag
enabled and both dates present: a successful `validate_nql` run forces
`end` to be the first day of the quarter after `start`
(`_next_quarter_start`, which equals `start` shifted by 3 months whenever
`start` is the first day of a quarter), sets `exclusive_end := true` and
records `quarter_exclusive_end` in `provenance.critic_pass`; and whenever
`end` differs from that bound, `validate_nql` raises. -/
theorem C1_quarter_bounds {q : NQLQuery} {s e : Date}
    (hq : quarterCond q)
    (hs : q.time.window.start = some s) (he : q.time.window.«end» = some e) :
    (∀ z, validate_nql q = .ok z →
      e = nextQuarterStart s ∧ z.time.window.exclusive_end = true ∧
      "quarter_exclusive_end" ∈ z.provenance.critic_pass) ∧
    (e ≠ nextQuarterStart s → ∃ msg, validate_nql q = .error msg) := by
  constructor
  · intro z hz
    obtain ⟨-, -, -, -, -, -, -, -, -, -, -, hqpos, -, -, -, -, -, -, -, -, htags⟩ :=
      validate_nql_ok_spec hz
    obtain ⟨⟨s2, e2, hs2, he2, heq⟩, hexcl⟩ := hqpos hq
    rw [hs] at hs2
    rw [he] at he2
    cases hs2
    cases he2
    refine ⟨heq, hexcl, htags _ ?_⟩
    simp [stepTags, if_pos hq]
  · intro hne
    unfold validate_nql
    by_cases hm : q.metrics = []
    · rw [if_pos hm]; exact ⟨_, rfl⟩
    · rw [if_neg hm]
      obtain ⟨msg, hqb⟩ := ensureQuarterBounds_raises hq hs he hne
      rw [hqb]
      exact ⟨msg, rfl⟩

/-- Witness for C1: on the well-formed Q2-2023 quarter query the success
branch applies, and perturbing the end date makes the validator raise. -/
theorem C1_quarter_bounds_witness :
    (∀ z, validate_nql quarterAlignedQuery = .ok z →
      (⟨2023, 7, 1⟩ : Date) = nextQuarterStart ⟨2023, 4, 1⟩ ∧
      z.time.window.exclusive_end = true ∧
      "quarter_exclusive_end" ∈ z.provenance.critic_pass) ∧
    ((⟨2023, 7, 1⟩ : Date) ≠ nextQuarterStart ⟨2023, 4, 1⟩ →
      ∃ msg, validate_nql quarterAlignedQuery = .error msg) :=
  C1_quarter_bounds (by decide) (by decide) (by decide)

/-- **C3 (code bug).** On the repository's own failing test input
(`tests/v2/test_pre_post_ab.py::test_absolute_baseline_missing_bounds`,
`compare.baseline = "absolute"` with `start`/`end` both missing),
`validate_nql` succeeds and records no `baseline_absolute_requires_bounds`
pass: the claimed absolute-baseline bound check does not exist in
`validate_nql`, although the test suite requires it to raise. -/
theorem C3_absolute_baseline_check_missing :
    absoluteBaselineQuery.compare.bind (fun c => c.baseline) = some "absolute" ∧
    absoluteBaselineQuery.compare.bind (fun c => c.start) = none ∧
    absoluteBaselineQuery.compare.bind (fun c => c.«end») = none ∧
    (validate_nql absoluteBaselineQuery).map
      (fun z => decide ("baseline_absolute_requires_bounds" ∈ z.provenance.critic_pass))
      = .ok false := by decide

/-- **C5 (counterexample).** `trendDimensionsQuery` is a trend query
(with `require_grouping_for_trend` enabled) whose `dimensions` already
contain `month` but whose `group_by` does not: `validate_nql` succeeds
with `group_by` still empty, so the claim that the output always has
`month` present in `group_by` is false — the code checks
`group_by ∪ dimensions` before inserting. -/
theorem C5_trend_dimensions_counterexample :
    trendDimensionsQuery.intent = "trend" ∧
    trendDimensionsQuery.flags.require_grouping_for_trend = true ∧
    "month" ∉ trendDimensionsQuery.group_by ∧
    (validate_nql trendDimensionsQuery).map
      (fun z => decide ("month" ∈ z.group_by)) = .ok false := by decide

/-- **C5 (amended).** For every trend query (with
`require_grouping_for_trend` true) on which `validate_nql` succeeds,
`month` is present in the output's `group_by` or `dimensions`; it is
inserted at position 0 of `group_by` exactly when it was absent from both
the input's `group_by` and `dimensions` (when it was already present in
either, `group_by` passes through unchanged); and a `relative_months`
window with `n` unset comes out with `n = 12`. -/
theorem C5_trend_grouping {q z : NQLQuery}
    (ht : trendCond q) (h : validate_nql q = .ok z) :
    ("month" ∈ z.group_by ∨ "month" ∈ z.dimensions) ∧
    ("month" ∉ q.group_by ∧ "month" ∉ q.dimensions →
      z.group_by = "month" :: q.group_by) ∧
    ("month" ∈ q.group_by ∨ "month" ∈ q.dimensions →
      z.group_by = q.group_by) ∧
    (q.time.window.type = WindowType.relative_months ∧ q.time.window.n = none →
      z.time.window.n = some 12) := by
  obtain ⟨-, -, -, -, -, -, -, -, -, -, -, -, htpos, -, -, -, -, -, -, -, -⟩ :=
    validate_nql_ok_spec h
  obtain ⟨hmem, -, hins, hpres, hn12⟩ := htpos ht
  exact ⟨hmem, hins, hpres, hn12⟩

/-- Witness for C5: a plain trend query gets `month` inserted first and
`n` defaulted to 12. -/
theorem C5_trend_grouping_witness :
    ("month" ∈ ["month"] ∨ "month" ∈ trendPlainQuery.dimensions) ∧
    ("month" ∉ trendPlainQuery.group_by ∧ "month" ∉ trendPlainQuery.dimensions →
      (["month"] : List String) = "month" :: trendPlainQuery.group_by) ∧
    ("month" ∈ trendPlainQuery.group_by ∨ "month" ∈ trendPlainQuery.dimensions →
      (["month"] : List String) = trendPlainQuery.group_by) ∧
    (trendPlainQuery.time.window.type = WindowType.relative_months ∧
      trendPlainQuery.time.window.n = none →
      (some 12 : Option Int) = some 12) := by
  have h := C5_trend_grouping (q := trendPlainQuery)
    (z := { trendPlainQuery with
            group_by := ["month"],
            time := { trendPlainQuery.time with
                      window := { trendPlainQuery.time.window with n := some 12 } },
            flags := { trendPlainQuery.flags with rowcap_hint := 2000 },
            provenance := { trendPlainQuery.provenance with
              critic_pass := ["trend_grouping", "like_passthrough", "limit_clamp"] } })
    (by decide) (by decide)
  simpa using h

end NQL

/-! ## Canonicalizer claims -/

namespace Canonical

/-- **C6.** `Canonicalizer.resolve` on a raw string: a value containing a
wildcard comes back unchanged with `like_bypass = true` and
`applied = false`; otherwise the trimmed, lowercased value is looked up
in the cached mapping of the dimension — a hit returns the stored
canonical value with `applied = true`, a miss returns the raw value
unchanged with `applied = false`. -/
theorem C6_canonicalizer_resolve (m : CanonMap) (dim : String) (raw : String) :
    (pyContainsChar (pyStrip raw) '%' = true →
      canonicalizerResolve m dim (.str raw) =
        { value := .str raw, applied := false, like_bypass := true }) ∧
    (∀ entry c, pyStrip raw ≠ "" → pyContainsChar (pyStrip raw) '%' = false →
      lookupAssoc ((lookupAssoc m dim).getD []) (normalise (pyStrip raw)) = some entry →
      entry.canonical = some c → c ≠ "" →
      canonicalizerResolve m dim (.str raw) =
        { value := .str c, applied := true, like_bypass := false,
          canonical := some c, synonym := some (pyStrip raw) }) ∧
    (pyContainsChar (pyStrip raw) '%' = false →
      lookupAssoc ((lookupAssoc m dim).getD []) (normalise (pyStrip raw)) = none →
      canonicalizerResolve m dim (.str raw) =
        { value := .str raw, applied := false, like_bypass := false }) := by
  refine ⟨?_, ?_, ?_⟩
  · intro hwild
    have hne : pyStrip raw ≠ "" := fun h0 => absurd (h0 ▸ hwild) (by decide)
    unfold canonicalizerResolve
    dsimp only
    rw [if_neg hne, if_pos hwild]
  · intro entry c hne hwild hhit hcan hcne
    unfold canonicalizerResolve
    dsimp only
    rw [if_neg hne, if_neg (by simp [hwild]), hhit]
    dsimp only
    rw [hcan]
    dsimp only
    rw [if_neg hcne]
  · intro hwild hmiss
    unfold canonicalizerResolve
    dsimp only
    by_cases hne : pyStrip raw = ""
    · rw [if_pos hne]
    · rw [if_neg hne, if_neg (by simp [hwild]), hmiss]

/-- Witness for C6: `%holly%` bypasses, `" HollyWD "` canonicalises to
`Hollywood`, `nope` misses. -/
theorem C6_canonicalizer_resolve_witness :
    canonicalizerResolve [("area", [("hollywd", ⟨some "Hollywood"⟩)])] "area"
        (.str "%holly%") =
      { value := .str "%holly%", applied := false, like_bypass := true } ∧
    canonicalizerResolve [("area", [("hollywd", ⟨some "Hollywood"⟩)])] "area"
        (.str " HollyWD ") =
      { value := .str "Hollywood", applied := true, like_bypass := false,
        canonical := some "Hollywood", synonym := some "HollyWD" } ∧
    canonicalizerResolve [("area", [("hollywd", ⟨some "Hollywood"⟩)])] "area"
        (.str "nope") =
      { value := .str "nope", applied := false, like_bypass := false } := by
  refine ⟨(C6_canonicalizer_resolve _ "area" "%holly%").1 (by decide),
    ?_, (C6_canonicalizer_resolve _ "area" "nope").2.2 (by decide) (by decide)⟩
  have h := (C6_canonicalizer_resolve
      [("area", [("hollywd", ⟨some "Hollywood"⟩)])] "area" " HollyWD ").2.1
    ⟨some "Hollywood"⟩ "Hollywood" (by decide) (by decide) (by decide) rfl (by decide)
  simpa using h

end Canonical

/-! ## Executor ranking properties -/

namespace Exec

theorem closestMatches_length_le (vals : List String) (v : String) (lim : Nat) :
    (closestMatches vals v lim).length ≤ lim := by
  unfold closestMatches
  dsimp only
  rw [List.length_map, List.length_take]
  exact min_le_left _ _

theorem closestMatches_ranked (vals : List String) (v : String) (lim : Nat) :
    (closestMatches vals v lim).Pairwise (fun a b =>
      levenshtein (pyLower v) (pyLower a) ≤ levenshtein (pyLower v) (pyLower b)) := by
  unfold closestMatches
  dsimp only
  rw [List.pairwise_map]
  have htrans : ∀ (a b c : Nat × String),
      (fun x y : Nat × String => decide (x.1 ≤ y.1)) a b = true →
      (fun x y : Nat × String => decide (x.1 ≤ y.1)) b c = true →
      (fun x y : Nat × String => decide (x.1 ≤ y.1)) a c = true := by
    intro a b c hab hbc
    simp only [decide_eq_true_eq] at hab hbc ⊢
    exact le_trans hab hbc
  have htotal : ∀ (a b : Nat × String),
      ((fun x y : Nat × String => decide (x.1 ≤ y.1)) a b ||
       (fun x y : Nat × String => decide (x.1 ≤ y.1)) b a) = true := by
    intro a b
    simp only [Bool.or_eq_true, decide_eq_true_eq]
    exact Nat.le_total a.1 b.1
  have hsorted := List.sorted_mergeSort htrans htotal
    (vals.map (fun item => (levenshtein (pyLower v) (pyLower item), item)))
  have hsorted' : ((vals.map (fun item => (levenshtein (pyLower v) (pyLower item), item))).mergeSort
      (fun x y : Nat × String => decide (x.1 ≤ y.1))).Pairwise
      (fun x y : Nat × String => x.1 ≤ y.1) :=
    hsorted.imp (fun h => by simpa using h)
  have htake := hsorted'.sublist (List.take_sublist lim _)
  refine htake.imp_of_mem ?_
  intro a b ha hb hle
  have hmem : ∀ x : Nat × String,
      x ∈ ((vals.map (fun item => (levenshtein (pyLower v) (pyLower item), item))).mergeSort
        (fun x y : Nat × String => decide (x.1 ≤ y.1))).take lim →
      x.1 = levenshtein (pyLower v) (pyLower x.2) := by
    intro x hx
    have hx1 : x ∈ (vals.map (fun item =>
        (levenshtein (pyLower v) (pyLower item), item))).mergeSort
        (fun x y : Nat × String => decide (x.1 ≤ y.1)) :=
      (List.take_sublist lim _).subset hx
    have hx2 : x ∈ vals.map (fun item =>
        (levenshtein (pyLower v) (pyLower item), item)) :=
      (List.mergeSort_perm _ _).subset hx1
    obtain ⟨item, -, rfl⟩ := List.mem_map.mp hx2
    rfl
  rw [← hmem a ha, ← hmem b hb]
  exact hle

end Exec

/-! ## Resolver claims -/

namespace Resolver

open Canonical Exec

/-- **C4.** The pattern-operator bypass is a hard invariant: for every
filter whose operator (case-insensitively) is in
`{like, not like, like_any, contains}`, the resolver's filter step
returns the filter with its value verbatim and makes **zero** calls to
the canonicalizer or the executor lookups, hence its output is identical
under every oracle behaviour. -/
theorem C4_pattern_bypass (env env2 : ResolveEnv) (dims : List String)
    (f : PFilter) (o : String) (hop : f.op = some o)
    (hpat : PATTERN_OPERATORS.contains (pyLower o) = true) :
    resolveFilterStep env dims f = .ok (f, []) ∧
    resolveFilterStep env dims f = resolveFilterStep env2 dims f := by
  have hno : o ≠ "" := by
    intro h0; rw [h0] at hpat; exact absurd hpat (by decide)
  have hbyp : shouldBypassValueResolution f.op = true := by
    rw [hop]
    unfold shouldBypassValueResolution
    dsimp only
    rw [if_neg hno]
    exact hpat
  have hstep : ∀ e : ResolveEnv, resolveFilterStep e dims f = .ok (f, []) := by
    intro e
    unfold resolveFilterStep
    rw [if_pos hbyp]
  exact ⟨hstep env, (hstep env).trans (hstep env2).symm⟩

/-- Witness for C4: a `LIKE` filter value passes through verbatim under
two different oracle assignments. -/
theorem C4_pattern_bypass_witness :
    resolveFilterStep (mixedEnv (fun _ _ =>
        { value := .null, applied := false, like_bypass := false }) [])
      ["weapon"] ⟨"weapon", some "LIKE", .str "%firearm%"⟩ =
      .ok (⟨"weapon", some "LIKE", .str "%firearm%"⟩, []) ∧
    resolveFilterStep (mixedEnv (fun _ _ =>
        { value := .null, applied := false, like_bypass := false }) [])
      ["weapon"] ⟨"weapon", some "LIKE", .str "%firearm%"⟩ =
    resolveFilterStep (sourceEnv [("weapon", [("gun", ⟨some "Firearm"⟩)])]
        ["Firearm", "Knife"])
      ["weapon"] ⟨"weapon", some "LIKE", .str "%firearm%"⟩ :=
  C4_pattern_bypass _ _ ["weapon"] _ "LIKE" rfl (by decide)

/-- **C2.** (Spec-modelled: the canonicalizer-integrated
`PlanResolver._resolve_filter_values` of the `app/resolver` package is
absent from `src/`.)  For every non-month filter over a known dimension
whose operator is not a pattern operator, the filter step first consults
the canonicalizer; an applied resolution is used directly with no
executor lookup; only an unapplied resolution falls back to the
executor's legacy `find_closest_value`, and when that returns nothing the
step raises `PlanResolutionError` whose suggestions are the executor's
`closest_matches`: at most 5 values ranked by edit distance. -/
theorem C2_canonicalizer_first_fallback
    (canon : String → PValue → CanonicalResolution) (vals : List String)
    (dims : List String) (fld s : String) (op : Option String)
    (hf : fld ≠ "month") (hdim : dims.contains fld = true)
    (hnb : shouldBypassValueResolution op = false) :
    (∀ r, (canon fld (.str s)).applied = true → (canon fld (.str s)).value = .str r →
      resolveFilterStep (mixedEnv canon vals) dims ⟨fld, op, .str s⟩ =
        .ok (⟨fld, op, .str r⟩, [.canon fld (.str s)])) ∧
    ((canon fld (.str s)).applied = false →
      (∀ r, Exec.findClosestValue vals s = some r →
        resolveFilterStep (mixedEnv canon vals) dims ⟨fld, op, .str s⟩ =
          .ok (⟨fld, op, .str r⟩,
            [.canon fld (.str s), .findValue fld (.str s)])) ∧
      (Exec.findClosestValue vals s = none →
        resolveFilterStep (mixedEnv canon vals) dims ⟨fld, op, .str s⟩ =
          .error { message := "Could not find value '" ++ s ++ "' for " ++ fld,
                   suggestions := Exec.closestMatches vals s 5 } ∧
        (Exec.closestMatches vals s 5).length ≤ 5 ∧
        (Exec.closestMatches vals s 5).Pairwise (fun a b =>
          levenshtein (pyLower s) (pyLower a) ≤ levenshtein (pyLower s) (pyLower b)))) := by
  have route : ∀ out, resolveItem (mixedEnv canon vals) fld (.str s) = out →
      resolveFilterStep (mixedEnv canon vals) dims ⟨fld, op, .str s⟩ =
        match out with
        | .ok rc => .ok (⟨fld, op, .str rc.1⟩, rc.2)
        | .error e => .error e := by
    intro out hout
    unfold resolveFilterStep
    rw [if_neg (by rw [hnb]; exact Bool.false_ne_true)]
    unfold resolveFilterValues
    dsimp only
    rw [if_neg hf, if_neg (by rw [hdim]; intro hc; exact hc rfl), hout]
    cases out with
    | ok rc => rfl
    | error e => rfl
  refine ⟨?_, ?_⟩
  · intro r happ hval
    have hri : resolveItem (mixedEnv canon vals) fld (.str s) =
        .ok (r, [.canon fld (.str s)]) := by
      unfold resolveItem
      dsimp only [mixedEnv]
      rw [if_pos (by rw [happ]), hval]
      rfl
    exact route _ hri
  · intro happ
    constructor
    · intro r hfind
      have hri : resolveItem (mixedEnv canon vals) fld (.str s) =
          .ok (r, [.canon fld (.str s), .findValue fld (.str s)]) := by
        unfold resolveItem
        dsimp only [mixedEnv]
        rw [if_neg (by rw [happ]; exact Bool.false_ne_true), hfind]
      exact route _ hri
    · intro hfind
      refine ⟨?_, closestMatches_length_le vals s 5, closestMatches_ranked vals s 5⟩
      have hri : resolveItem (mixedEnv canon vals) fld (.str s) =
          .error { message := "Could not find value '" ++ s ++ "' for " ++ fld,
                   suggestions := Exec.closestMatches vals s 5 } := by
        unfold resolveItem
        dsimp only [mixedEnv]
        rw [if_neg (by rw [happ]; exact Bool.false_ne_true), hfind]
        rfl
      exact route _ hri

/-- Witness for C2: an unapplied canonicalizer resolution over a dataset
without the requested value raises with the executor's ranked
suggestions. -/
theorem C2_canonicalizer_first_fallback_witness :
    resolveFilterStep (mixedEnv (fun _ _ =>
        { value := .null, applied := false, like_bypass := false })
        ["Central", "Downtown"]) ["area"] ⟨"area", some "=", .str "zzz"⟩ =
      .error { message := "Could not find value 'zzz' for area",
               suggestions := Exec.closestMatches ["Central", "Downtown"] "zzz" 5 } ∧
    (Exec.closestMatches ["Central", "Downtown"] "zzz" 5).length ≤ 5 ∧
    (Exec.closestMatches ["Central", "Downtown"] "zzz" 5).Pairwise (fun a b =>
      levenshtein (pyLower "zzz") (pyLower a) ≤ levenshtein (pyLower "zzz") (pyLower b)) :=
  (C2_canonicalizer_first_fallback
    (fun _ _ => { value := .null, applied := false, like_bypass := false })
    ["Central", "Downtown"] ["area"] "area" "zzz" (some "=")
    (by decide) (by decide) (by decide)).2 rfl |>.2 (by decide)

end Resolver

/-! ## Guardrail claims -/

namespace Guard

/-- **C9.** When the NQL dict's `time.start`/`time.end` parse as ISO
dates with start < end but the span exceeds the configured maximum
(`MAX_TIME_RANGE_YEARS * 366` days; 10 years by default), `validate_plan`
blocks: `decision = "block"`, `effective_sql = None`, and the diagnostics
carry a suggested rewrite snapping the range to the last 12 months
(365 days) ending at the original end date — for every continuation of
the post-time-check phase, which is never reached. -/
theorem C9_time_span_block (cfg : GuardConfig) (n : GNql) (t : GTime)
    (sql : String) (rest : GNql → List Diagnostic → GuardLimits → GuardResult)
    (ps pe : Date)
    (hsel : hasSelectStar sql = false)
    (ht : n.time = some t) (hs : t.start = some ps) (he : t.«end» = some pe)
    (hlt : dateLe pe ps = false)
    (hspan : pe.subDays ps > cfg.MAX_TIME_RANGE_YEARS * 366) :
    validate_plan cfg (some n) sql rest =
      { decision := "block",
        effective_nql := setTimeRange n (pe.minusDays 365) pe,
        effective_sql := none,
        diagnostics := [.ambiguousTimeSpan ps pe cfg.MAX_TIME_RANGE_YEARS,
                        .blockedRewrite (pe.minusDays 365) pe],
        limits := { row_cap := cfg.MAX_ROWS } } := by
  unfold validate_plan
  dsimp only [Option.getD]
  rw [if_neg (by rw [hsel]; exact Bool.false_ne_true), ht]
  dsimp only [Option.bind]
  rw [hs, he]
  dsimp only
  rw [if_neg (by rw [hlt]; exact Bool.false_ne_true), if_pos hspan]

/-- Witness for C9: a 15-year span (2008-01-01 to 2023-01-01, 5479 days,
beyond the 3660-day default cap) is blocked with the suggested
last-12-months rewrite 2022-01-01..2023-01-01. -/
theorem C9_time_span_block_witness :
    validate_plan {} (some ⟨some ⟨some ⟨2008, 1, 1⟩, some ⟨2023, 1, 1⟩⟩⟩)
      "SELECT COUNT(*) FROM base"
      (fun en d l => ⟨"allow", en, some "SELECT COUNT(*) FROM base", d, l, true⟩) =
      { decision := "block",
        effective_nql := setTimeRange ⟨some ⟨some ⟨2008, 1, 1⟩, some ⟨2023, 1, 1⟩⟩⟩
          ((⟨2023, 1, 1⟩ : Date).minusDays 365) ⟨2023, 1, 1⟩,
        effective_sql := none,
        diagnostics := [.ambiguousTimeSpan ⟨2008, 1, 1⟩ ⟨2023, 1, 1⟩ 10,
                        .blockedRewrite ((⟨2023, 1, 1⟩ : Date).minusDays 365) ⟨2023, 1, 1⟩],
        limits := { row_cap := 10000 } } :=
  C9_time_span_block {} _ _ _ _ ⟨2008, 1, 1⟩ ⟨2023, 1, 1⟩
    (by decide) rfl rfl rfl (by decide) (by decide)

end Guard

/-! ## SQL-builder claims -/

namespace SQLB

/-- **C8.** For every resolved plan carrying `top_k_within_group` with
`k` and a rank field, and at least two group-by dimensions, the SQL
emitted by `build` ranks with
`ROW_NUMBER() OVER (PARTITION BY <all group-by dims except the last>
ORDER BY <rank> DESC) AS rn` and keeps only `rn <= k` (the trailing
`t1 ++ t2` is empty unless a limit is set); under the modelled window
semantics each partition therefore yields at most `k` rows. -/
theorem C8_topk_partition (plan : BPlan) (semantic : SemanticModel)
    (topk : BTopK) (k : Int) (rank : String)
    (htop : plan.top_k_within_group = some topk)
    (hk : topk.k = some k) (hby : topk.«by» = some rank)
    (hlen : plan.group_by.length > 1) :
    (∃ aggSql outputCols t1 t2, build plan semantic =
        baseCte ++ ", ranked AS (" ++ ("SELECT *, ROW_NUMBER() OVER (" ++
          ("PARTITION BY " ++ ", ".intercalate plan.group_by.dropLast) ++
          " ORDER BY " ++ rank ++ " DESC) AS rn FROM (" ++ aggSql ++ ") agg") ++
        ") SELECT " ++ outputCols ++ " FROM ranked WHERE rn <= " ++ toString k ++
        t1 ++ t2 ∧
        (pyIntOf plan.limit = 0 → t1 = "" ∧ t2 = "")) ∧
    (∀ rows key, (topKSurvivors k.toNat rows key).length ≤ k.toNat) := by
  constructor
  · have hb : build plan semantic =
        buildV2TopkWithinGroupSql topk plan.filters plan.group_by
          (if plan.metrics = [] ∧ plan.aggregate ≠ some "count" then ["incidents"]
           else plan.metrics) semantic (pyIntOf plan.limit) := by
      unfold build
      rw [htop]
    rw [hb]
    unfold buildV2TopkWithinGroupSql
    rw [hk, hby]
    dsimp only [Option.getD]
    rw [if_pos hlen]
    unfold withLimit
    by_cases hl : pyIntOf plan.limit ≠ 0
    · rw [if_pos hl]
      refine ⟨_, _, " LIMIT ", toString (pyIntOf plan.limit), rfl,
        fun h0 => absurd h0 hl⟩
    · rw [if_neg hl]
      refine ⟨_, _, "", "",
        by rw [String.append_empty, String.append_empty], fun _ => ⟨rfl, rfl⟩⟩
  · intro rows key
    unfold topKSurvivors
    exact List.length_take_le _ _

/-- Witness for C8: the `k = 3`, rank `incidents` plan over
`["area", "crime_type"]` partitions by `area` alone and filters
`rn <= 3`. -/
theorem C8_topk_partition_witness :
    (∃ aggSql outputCols t1 t2, build topKPlan crimeSemantic =
        baseCte ++ ", ranked AS (" ++ ("SELECT *, ROW_NUMBER() OVER (" ++
          ("PARTITION BY " ++ ", ".intercalate topKPlan.group_by.dropLast) ++
          " ORDER BY " ++ "incidents" ++ " DESC) AS rn FROM (" ++ aggSql ++ ") agg") ++
        ") SELECT " ++ outputCols ++ " FROM ranked WHERE rn <= " ++ toString (3 : Int) ++
        t1 ++ t2 ∧
        (pyIntOf topKPlan.limit = 0 → t1 = "" ∧ t2 = "")) ∧
    (∀ rows key, (topKSurvivors (3 : Int).toNat rows key).length ≤ (3 : Int).toNat) :=
  C8_topk_partition topKPlan crimeSemantic { k := some 3, «by» := some "incidents" } 3
    "incidents" rfl rfl rfl (by decide)

open Resolver (LimitValue resolveLimit) in
/-- `if limit:` is false for `limit = 0`: the shared tail appends
nothing. -/
theorem withLimit_zero (s : String) : withLimit s 0 = s := by
  unfold withLimit
  rw [if_neg (by decide)]

/-- The limit argument of the top-k builder only feeds the shared
`if limit:` tail. -/
theorem buildV2TopkWithinGroupSql_shape (topkDict : BTopK) (filters : List BFilter)
    (groupBy : List String) (metrics : List String) (semantic : SemanticModel)
    (limit : Int) :
    buildV2TopkWithinGroupSql topkDict filters groupBy metrics semantic limit =
      withLimit (buildV2TopkWithinGroupSql topkDict filters groupBy metrics semantic 0)
        limit := by
  unfold buildV2TopkWithinGroupSql
  rw [withLimit_zero]

/-- The limit argument of the bucket builder only feeds the shared
`if limit:` tail. -/
theorem buildV2BucketSql_shape (bucketDict : BBucket) (limit : Int) :
    buildV2BucketSql bucketDict limit =
      withLimit (buildV2BucketSql bucketDict 0) limit := by
  unfold buildV2BucketSql
  dsimp only
  by_cases hq : bucketDict.method.getD "quantile" = "quantile"
  · rw [if_pos hq, if_pos hq, withLimit_zero]
  · rw [if_neg hq, if_neg hq, withLimit_zero]

/-- The limit argument of the v2 aggregate builder only feeds the shared
`if limit:` tail. -/
theorem buildV2AggregateSql_shape (aggregateDict : BAggV2) (filters : List BFilter)
    (groupBy : List String) (semantic : SemanticModel) (limit : Int) :
    buildV2AggregateSql aggregateDict filters groupBy semantic limit =
      withLimit (buildV2AggregateSql aggregateDict filters groupBy semantic 0)
        limit := by
  unfold buildV2AggregateSql
  dsimp only
  by_cases hm : (optTruthy aggregateDict.median_of &&
      ["incidents", "count", "events"].contains
        (Py.pyLower (aggregateDict.median_of.getD ""))) = true
  · rw [if_pos hm, if_pos hm, withLimit_zero]
  · rw [if_neg hm, if_neg hm, withLimit_zero]

/-- The limit argument of the v2 compare builder only feeds the shared
`if limit:` tail. -/
theorem buildV2CompareSql_shape (compareDict : BCompare) (filters : List BFilter)
    (groupBy : List String) (metrics : List String) (semantic : SemanticModel)
    (orderBy : List OrderSpec) (limit : Int) :
    buildV2CompareSql compareDict filters groupBy metrics semantic orderBy limit =
      withLimit (buildV2CompareSql compareDict filters groupBy metrics semantic orderBy 0)
        limit := by
  unfold buildV2CompareSql
  rw [withLimit_zero]

open Resolver (LimitValue) in
/-- `build` threads the raw limit only into the shared `if limit:` tail:
building with limit `lv` equals building with limit 0 and then appending
the tail for `int(lv)`. -/
theorem build_shape (plan : BPlan) (semantic : SemanticModel) (lv : LimitValue) :
    build { plan with limit := lv } semantic =
      withLimit (build { plan with limit := LimitValue.int 0 } semantic)
        (pyIntOf lv) := by
  unfold build
  dsimp only [pyIntOf]
  cases htk : plan.top_k_within_group with
  | some topk => exact buildV2TopkWithinGroupSql_shape _ _ _ _ _ _
  | none =>
  cases hbk : plan.bucket with
  | some bucket => exact buildV2BucketSql_shape _ _
  | none =>
  cases hag : plan.aggregate_v2 with
  | some aggV2 => exact buildV2AggregateSql_shape _ _ _ _ _
  | none =>
  dsimp only
  by_cases hc : (plan.compare.bind (·.baseline)) ∈
      [some "previous_period", some "same_period_last_year", some "absolute"] ∧
      (plan.compare.bind (·.method)) ∈ [some "diff_abs", some "diff_pct"]
  · rw [if_pos hc, if_pos hc]
    exact buildV2CompareSql_shape _ _ _ _ _ _ _
  · rw [if_neg hc, if_neg hc]
    by_cases hm : plan.compare.bind (·.type) = some "mom" ∨
        plan.compare.bind (·.type) = some "yoy"
    · rw [if_pos hm, if_pos hm, withLimit_zero]
    · rw [if_neg hm, if_neg hm, withLimit_zero]

open Resolver (LimitValue resolveLimit) in
set_option maxRecDepth 8192 in
/-- **C10.** A falsy raw limit (`None`, `""`, `0`, `"0"`) resolves to
limit 0; for every plan whose resolved limit is 0 the built SQL is
exactly the no-limit text (setting any non-zero limit `k` on the same
plan appends precisely `" LIMIT k"` and nothing else), and the concrete
no-limit plan's SQL contains no `LIMIT` substring at all. -/
theorem C10_limit_falsy_unbounded :
    (resolveLimit .null = some 0 ∧ resolveLimit (.str "") = some 0 ∧
     resolveLimit (.int 0) = some 0 ∧ resolveLimit (.str "0") = some 0) ∧
    (∀ (plan : BPlan) (semantic : SemanticModel),
      pyIntOf plan.limit = 0 → ∀ k : Int, k ≠ 0 →
        build (setLimit plan (.int k)) semantic =
          build plan semantic ++ " LIMIT " ++ toString k) ∧
    strContains (build unlimitedPlan crimeSemantic) "LIMIT" = false := by
  refine ⟨⟨rfl, rfl, rfl, rfl⟩, ?_, by decide⟩
  intro plan semantic hlim0 k hk
  have h1 := build_shape plan semantic (.int k)
  have h2' : build plan semantic =
      withLimit (build { plan with limit := LimitValue.int 0 } semantic)
        (pyIntOf plan.limit) := build_shape plan semantic plan.limit
  rw [hlim0, withLimit_zero] at h2'
  unfold setLimit
  rw [h1, h2']
  unfold withLimit
  dsimp only [pyIntOf]
  rw [if_pos hk]

open Resolver (LimitValue) in
/-- Witness for C10: setting limit 25 on the concrete no-limit plan
appends exactly `" LIMIT 25"` to its SQL. -/
theorem C10_limit_falsy_unbounded_witness :
    build (setLimit unlimitedPlan (.int 25)) crimeSemantic =
      build unlimitedPlan crimeSemantic ++ " LIMIT " ++ toString (25 : Int) :=
  C10_limit_falsy_unbounded.2.1 unlimitedPlan crimeSemantic rfl 25 (by decide)

end SQLB

end Scout
